import Mathlib

/-
  Verification development for the meta-app-builder service
  (FastAPI app that generates a static site, commits it to a GitHub
  repository, enables GitHub Pages and notifies an evaluation endpoint).

  The Python sources (app.py, attachments.py, github_pages.py,
  llm_generator.py, schemas.py) are shallowly embedded below:
  pure helpers become Lean functions on `List Char` / `String`,
  HTTP interactions become explicit state passing through an abstract
  `Client` (request -> response oracle) together with a concrete
  semantic model `GhState` of the GitHub host that also records a log
  of every request it served, and code that can raise returns `Except`.
-/

set_option maxRecDepth 4000

namespace MetaAppBuilder

/-! ### Python string helpers -/

/-- Characters treated as whitespace by Python's `str.strip()`
    (restricted to the ASCII range, which is all the sources use). -/
def isPyWs (c : Char) : Bool :=
  c = ' ' ∨ c = '\t' ∨ c = '\n' ∨ c = '\r' ∨ c = '\x0b' ∨ c = '\x0c'

/-- Characters `[ \t]`, the indentation characters of `textwrap.dedent`. -/
def isIndentCh (c : Char) : Bool := c = ' ' ∨ c = '\t'

/-- Remove trailing characters satisfying `p` (right strip). -/
def dropTrailWhile (p : Char → Bool) (l : List Char) : List Char :=
  (l.reverse.dropWhile p).reverse

/-- Python `str.strip()` on a character list. -/
def pyStripL (l : List Char) : List Char :=
  dropTrailWhile isPyWs (l.dropWhile isPyWs)

/-- Python `str.strip()` on a `String`. -/
def pyStrip (s : String) : String := ⟨pyStripL s.data⟩

/-- Split a character list at newline characters; mirrors Python
    `text.split
    ('\n')` as used inside `textwrap.dedent`. -/
def splitNl : List Char → List (List Char)
  | [] => [[]]
  | c :: rest =>
    let r := splitNl rest
    if c = '\n' then [] :: r
    else (c :: r.headD []) :: r.tail

/-- Join lines with newline characters (inverse of `splitNl`). -/
def joinNl : List (List Char) → List Char
  | [] => []
  | l :: ls => l ++ (match ls with | [] => [] | _ :: _ => '\n' :: joinNl ls)

/-- `textwrap.dedent` first replaces whitespace-only lines by empty lines
    (the `_whitespace_only_re.sub('', text)` step). -/
def normLine (l : List Char) : List Char :=
  if l.all isIndentCh then [] else l

/-- Longest common prefix of two character lists.  The margin loop of
    CPython's `textwrap.dedent` computes exactly this: it keeps `margin`
    when `indent` extends it, replaces it by `indent` when `indent` is a
    prefix of it, and otherwise truncates at the first mismatch. -/
def lcp : List Char → List Char → List Char
  | [], _ => []
  | _, [] => []
  | a :: as, b :: bs => if a = b then a :: lcp as bs else []

/-- The margin computed by `textwrap.dedent`: the longest common prefix of
    the `[ \t]*` indents of all lines that contain a non-`[ \t]` character. -/
def dedentMargin (lines : List (List Char)) : List Char :=
  match lines.filterMap
      (fun l => if l.isEmpty then none else some (l.takeWhile isIndentCh)) with
  | [] => []
  | i :: rest => rest.foldl lcp i

/-- Per-line margin removal (`re.sub(r'(?m)^' + margin, '', text)`):
    a line is shortened only when it starts with the margin. -/
def dropMargin (margin l : List Char) : List Char :=
  if margin.isPrefixOf l then l.drop margin.length else l

/-- `textwrap.dedent` on a character list: normalize whitespace-only lines
    to empty, compute the common margin, strip it from every line. -/
def pyDedentL (cs : List Char) : List Char :=
  let lines := (splitNl cs).map normLine
  let margin := dedentMargin lines
  joinNl (lines.map (dropMargin margin))

/-- `textwrap.dedent` on a `String`. -/
def pyDedent (s : String) : String := ⟨pyDedentL s.data⟩

/-- Python `str.replace(old, new)` for single-character patterns,
    as used by `_repo_name` (`.replace("/", "-").replace(" ", "-")`). -/
def pyReplaceChar (a b : Char) (s : String) : String :=
  ⟨s.data.map (fun c => if c = a then b else c)⟩

/-! ### Bytes, UTF-8, base64 -/

/-- Byte strings are lists of byte values (each < 256 for inputs the
    program produces). -/
abbrev ByteStr := List Nat

/-- UTF-8 encoding of one character (`str.encode("utf-8")`). -/
def utf8Char (c : Char) : ByteStr :=
  let n := c.toNat
  if n < 0x80 then [n]
  else if n < 0x800 then [0xc0 + n / 64, 0x80 + n % 64]
  else if n < 0x10000 then
    [0xe0 + n / 4096, 0x80 + n / 64 % 64, 0x80 + n % 64]
  else
    [0xf0 + n / 262144, 0x80 + n / 4096 % 64, 0x80 + n / 64 % 64, 0x80 + n % 64]

/-- `text.encode("utf-8")` from `app.py`'s merge step. -/
def utf8Encode (s : String) : ByteStr := s.data.flatMap utf8Char

/-- The standard base64 alphabet. -/
def b64alphabet : List Char :=
  "ABCDEFGHIJKLMNOPQRSTUVWXYZabcdefghijklmnopqrstuvwxyz0123456789+/".data

/-- Character of a 6-bit value. -/
def b64char (n : Nat) : Char := b64alphabet.getD n 'A'

/-- `base64.b64encode(bytes).decode("ascii")` as used by `commit_files`. -/
def b64encodeL : ByteStr → List Char
  | [] => []
  | [a] => [b64char (a / 4), b64char (a % 4 * 16), '=', '=']
  | [a, b] => [b64char (a / 4), b64char (a % 4 * 16 + b / 16), b64char (b % 16 * 4), '=']
  | a :: b :: c :: rest =>
    b64char (a / 4) :: b64char (a % 4 * 16 + b / 16) ::
    b64char (b % 16 * 4 + c / 64) :: b64char (c % 64) :: b64encodeL rest

/-- `base64.b64encode` producing a `String`. -/
def b64encode (bs : ByteStr) : String := ⟨b64encodeL bs⟩

/-- Decoding table of `binascii.a2b_base64` (None for non-alphabet chars). -/
def b64value (c : Char) : Option Nat :=
  if 'A' ≤ c ∧ c ≤ 'Z' then some (c.toNat - 65)
  else if 'a' ≤ c ∧ c ≤ 'z' then some (c.toNat - 97 + 26)
  else if '0' ≤ c ∧ c ≤ '9' then some (c.toNat - 48 + 52)
  else if c = '+' then some 62
  else if c = '/' then some 63
  else none

/-- Loop of CPython's `binascii.a2b_base64` in non-strict mode (the mode
    used by `base64.b64decode(s)`):
    * a `'='` is counted as padding only when `quadPos ≥ 2`; decoding ends
      successfully when `quadPos + pads ≥ 4`;
    * non-alphabet characters are skipped;
    * at end of input, `quadPos` must be 0, otherwise `binascii.Error`
      is raised ("number of data characters cannot be 1 more than a
      multiple of 4" when `quadPos = 1`, "Incorrect padding" otherwise).
    The accumulator holds the produced bytes in reverse order.
    (Error strings are abbreviated forms of CPython's messages.) -/
def a2bLoop : List Char → Nat → Nat → Nat → ByteStr → Except String ByteStr
  | [], quadPos, _, _, acc =>
    if quadPos = 0 then .ok acc.reverse
    else if quadPos = 1 then .error "Invalid base64-encoded string"
    else .error "Incorrect padding"
  | c :: rest, quadPos, leftchar, pads, acc =>
    if c = '=' then
      if 2 ≤ quadPos then
        if 4 ≤ quadPos + (pads + 1) then .ok acc.reverse
        else a2bLoop rest quadPos leftchar (pads + 1) acc
      else a2bLoop rest quadPos leftchar pads acc
    else
      match b64value c with
      | none => a2bLoop rest quadPos leftchar pads acc
      | some v =>
        match quadPos with
        | 0 => a2bLoop rest 1 v 0 acc
        | 1 => a2bLoop rest 2 (v % 16) 0 ((leftchar * 4 + v / 16) :: acc)
        | 2 => a2bLoop rest 3 (v % 4) 0 ((leftchar * 16 + v / 4) :: acc)
        | _ => a2bLoop rest 0 0 0 ((leftchar * 64 + v) :: acc)

/-- `base64.b64decode` on a character list (may raise `binascii.Error`). -/
def b64decodePy (cs : List Char) : Except String ByteStr :=
  a2bLoop cs 0 0 0 []

/-! ### Python dictionaries as association lists -/

/-- Python `dict` assignment `d[k] = v`: update in place if the key is
    present (keeping its position), otherwise append at the end. -/
def dictInsert {β : Type} : List (String × β) → String → β → List (String × β)
  | [], k, v => [(k, v)]
  | (k', v') :: rest, k, v =>
    if k' = k then (k', v) :: rest else (k', v') :: dictInsert rest k v

/-- Lookup in an association list (first match). -/
def dlookup {β : Type} : List (String × β) → String → Option β
  | [], _ => none
  | (k', v') :: rest, k => if k' = k then some v' else dlookup rest k

/-- Remove every binding of a key (used to state "minus the latency_ms
    field" in the spec). -/
def eraseKey {β : Type} (l : List (String × β)) (k : String) : List (String × β) :=
  l.filter (fun e => decide (e.1 ≠ k))

/-! ### schemas.py -/

/-- `schemas.Attachment`. -/
structure Attachment where
  name : String
  url : String
deriving DecidableEq, Repr

/-- `schemas.SubmitPayload` (`evaluation_url` kept as its string form). -/
structure SubmitPayload where
  email : String
  secret : String
  task : String
  round : Int
  nonce : String
  brief : String
  checks : List String
  evaluation_url : String
  attachments : List Attachment
deriving Repr

/-! ### attachments.py -/

/-- Python's `\w` in a str pattern is Unicode-aware (CPython: a word
    character is any `str.isalnum()` character or `_`).  The full
    Unicode alphanumeric table is not reproduced here; instead the word
    class of `DATA_URI_RE` is abstracted as a predicate parameter `w`,
    so that the actual `\w` — whatever set of characters it denotes —
    is an instance of the definitions below.  `asciiWordChar` is its
    ASCII restriction `[A-Za-z0-9_]`, which agrees with `\w` on every
    ASCII string and is the instance the concrete witnesses exercise. -/
def asciiWordChar (c : Char) : Bool := c.isAlphanum ∨ c = '_'

/-- The regex class `[\w/+.-]` with the word class abstracted as `w`. -/
def isMimeCharW (w : Char → Bool) (c : Char) : Bool :=
  w c ∨ c = '/' ∨ c = '+' ∨ c = '.' ∨ c = '-'

/-- The mime class at the ASCII word-class instance. -/
def isMimeChar : Char → Bool := isMimeCharW asciiWordChar

/-- Characters of the `b64` group `[A-Za-z0-9+/=]` (an explicit ASCII
    class in the pattern, so no `\w` issue arises here). -/
def isB64Char (c : Char) : Bool :=
  c.isAlphanum ∨ c = '+' ∨ c = '/' ∨ c = '='

/-- `DATA_URI_RE.match(url)` with word class `w`, returning the `b64`
    group on success: literal `data:`, a nonempty run of mime
    characters, literal `;base64,`, and a nonempty run of `b64`
    characters reaching the end of the string (Python's `$` also matches
    just before a single trailing newline).

    For every `w` with `w ';' = false` — which holds of Python's `\w`,
    since `;` is punctuation, never a word character — the backtracking
    regex match is deterministic and equals this maximal-run parse: the
    mime run can never cross the `;` before `base64,`, and shrinking
    either greedy run only exposes a class character where a delimiter
    (`;` resp. end/newline) is required. -/
def dataUriMatchW (w : Char → Bool) (url : List Char) : Option (List Char) :=
  match url with
  | 'd' :: 'a' :: 't' :: 'a' :: ':' :: rest =>
    let mime := rest.takeWhile (isMimeCharW w)
    if mime.isEmpty then none
    else
      match rest.drop mime.length with
      | ';' :: 'b' :: 'a' :: 's' :: 'e' :: '6' :: '4' :: ',' :: rest2 =>
        let b64 := rest2.takeWhile isB64Char
        let tail := rest2.drop b64.length
        if b64.isEmpty then none
        else if tail = [] ∨ tail = ['\n'] then some b64
        else none
      | _ => none
  | _ => none

/-- `DATA_URI_RE.match(url)` at the ASCII word-class instance. -/
def dataUriMatch : List Char → Option (List Char) :=
  dataUriMatchW asciiWordChar

/-- Python `str.startswith(pre)`. -/
def pyStartsWith (s pre : String) : Bool := pre.data.isPrefixOf s.data

/-- `attachments.decode_and_collect_attachments` with word class `w`:
    skip entries with an empty name, entries whose url does not start
    with `data:` and entries whose url fails the regex; decode the `b64`
    group of the rest with `base64.b64decode`, which may raise
    (`Except.error`). -/
def decode_and_collect_attachmentsW (w : Char → Bool) :
    List Attachment → Except String (List (String × ByteStr)) :=
  go []
where
  go (out : List (String × ByteStr)) :
      List Attachment → Except String (List (String × ByteStr))
  | [] => .ok out
  | a :: rest =>
    if a.name = "" then go out rest
    else if pyStartsWith a.url "data:" then
      match dataUriMatchW w a.url.data with
      | none => go out rest
      | some b64 =>
        match b64decodePy b64 with
        | .error e => .error e
        | .ok bytes => go (dictInsert out a.name bytes) rest
    else go out rest

/-- The decoder at the ASCII word-class instance (the form the request
    pipeline runs; all inputs of the concrete witnesses are ASCII, where
    `asciiWordChar` agrees with Python's `\w`). -/
def decode_and_collect_attachments :
    List Attachment → Except String (List (String × ByteStr)) :=
  decode_and_collect_attachmentsW asciiWordChar

/-! ### llm_generator.py

The OpenAI client is embedded as an optional script of call results:
`none` models "no generation backend configured" (`_client is None`),
`some script` models a configured backend whose successive
`chat.completions.create` calls return the entries of `script` in order
(`Except.error` = the call raised: network error, API error, timeout, …).
The result records the remaining script, which makes the number of
backend calls a request performed observable. -/

abbrev LlmScript := List (Except String String)

/-- One `chat.completions.create(...)` call against the scripted backend. -/
def llmCall : LlmScript → Except String String × LlmScript
  | [] => (.error "no response", [])
  | r :: rest => (r, rest)

/-- `MIT_LICENSE.format(year=...)`. -/
def MIT_LICENSE (year : String) : String :=
  "MIT License\n\nCopyright (c) " ++ year ++
  "\n\nPermission is hereby granted, free of charge, to any person obtaining a copy...\n"

/-- Body of the `_style_css` triple-quoted template, before `dedent`. -/
def styleCssRaw : String :=
  "\n    :root \x7b font-family: system-ui, -apple-system, Segoe UI, Roboto, sans-serif; \x7d\n    body \x7b margin: 0; padding: 1rem; background: #fafafa; color: #222; \x7d\n    main \x7b max-width: 900px; margin: 0 auto; \x7d\n    #result \x7b margin-top: .75rem; padding: .5rem; background: #fff; border: 1px solid #ddd; border-radius: 6px; \x7d\n    table \x7b width: 100%; border-collapse: collapse; \x7d\n    th, td \x7b border-bottom: 1px solid #eee; padding: .5rem; text-align: left; \x7d\n    "

/-- `_style_css()`: a fixed template passed through `dedent` (no strip). -/
def _style_css : String := pyDedent styleCssRaw

/-- `', '.join(checks) or '(none)'` from `_fallback_index_html`. -/
def checksJoinFallback (checks : List String) : String :=
  let j := String.intercalate ", " checks
  if j = "" then "(none)" else j

/-- The interpolated f-string of `_fallback_index_html`, before
    `dedent`/`strip`, split around the two interpolation points. -/
def fbHtmlA : List Char :=
  ("\n    <!doctype html><html lang=\"en\"><head>\n      <meta charset=\"utf-8\"/>\n      <meta name=\"viewport\" content=\"width=device-width,initial-scale=1\"/>\n      <title>Generated App (fallback)</title>\n      <link rel=\"stylesheet\" href=\"style.css\">\n    </head><body>\n      <main>\n        <h1>Generated App (No LLM configured)</h1>\n        <p><strong>Brief:</strong> " : String).data

def fbHtmlM : List Char :=
  ("</p>\n        <p><strong>Checks:</strong> " : String).data

def fbHtmlB : List Char :=
  (" </p>\n        <div id=\"result\">Set OPENAI_API_KEY to enable full generation.</div>\n        <script src=\"script.js\"></script>\n      </main>\n    </body></html>\n    " : String).data

/-- The raw f-string of `_fallback_index_html` with `brief` and the joined
    checks interpolated. -/
def fbHtmlRaw (brief checksStr : List Char) : List Char :=
  fbHtmlA ++ brief ++ fbHtmlM ++ checksStr ++ fbHtmlB

/-- `_fallback_index_html(brief, checks, attachments)` =
    `dedent(f-string).strip()`.  (`attachments` is a parameter of the
    source function but is not used by its body.) -/
def _fallback_index_html (brief : String) (checks : List String)
    (_attachments : List String) : String :=
  ⟨pyStripL (pyDedentL (fbHtmlRaw brief.data (checksJoinFallback checks).data))⟩

/-- Body of the `_fallback_script_js` template, before `dedent`/`strip`. -/
def fbJsRaw : String :=
  "\n    (function () \x7b\n      const out = document.getElementById(\x27result\x27);\n      const q = new URLSearchParams(location.search);\n      if (out) out.textContent = \x27Params: \x27 + q.toString();\n    \x7d)();\n    "

/-- `_fallback_script_js()` = `dedent(template).strip()`. -/
def _fallback_script_js : String := pyStrip (pyDedent fbJsRaw)

/-- `chr(10).join('- ' + c for c in checks)` from the README template. -/
def checksDashJoin (checks : List String) : String :=
  String.intercalate "\n" (checks.map (fun c => "- " ++ c))

/-- The README f-string of `generate_app_files`, before `dedent`. -/
def readmeRaw (brief checksStr : List Char) : List Char :=
  ("\n    # Generated App (GitHub Pages)\n\n    **Brief**\n    " : String).data ++
  brief ++
  ("\n\n    **Checks**\n    " : String).data ++
  checksStr ++
  ("\n\n    ## Notes\n    - Static site; loads local files via fetch if present.\n    - Elements and IDs are created to satisfy automated checks when possible.\n    " : String).data

/-- The `readme` local of `generate_app_files` (`dedent(...)`, no strip). -/
def readme_md (brief : String) (checks : List String) : String :=
  ⟨pyDedentL (readmeRaw brief.data (checksDashJoin checks).data)⟩

/-- Result of `generate_app_files`: the returned `{path: text}` dict and
    the remaining backend script (`none` when no backend is configured). -/
structure GenOut where
  files : List (String × String)
  llm : Option LlmScript
deriving Repr

/-- The dict literal returned by `generate_app_files`. -/
def genFilesDict (html css js readme license_txt : String) :
    List (String × String) :=
  [("index.html", html), ("style.css", css), ("script.js", js),
   ("README.md", readme), ("LICENSE", license_txt)]

/-- `llm_generator.generate_app_files`.

    Mirrors the source control flow: with a configured client, try the
    page-markup call; on success try the script call; if either raises,
    set `use_fallback` and use the static templates for **both** markup
    and script.  With no client, `use_fallback` is set directly.
    Stylesheet, readme and license always come from fixed templates. -/
def generate_app_files (client : Option LlmScript) (brief : String)
    (checks attachments : List String) : GenOut :=
  let css := _style_css
  let readme := readme_md brief checks
  let license_txt := MIT_LICENSE "2025"
  let fbHtml := _fallback_index_html brief checks attachments
  let fbJs := _fallback_script_js
  match client with
  | none =>
    { files := genFilesDict fbHtml css fbJs readme license_txt, llm := none }
  | some script =>
    match llmCall script with
    | (.error _, rest) =>
      { files := genFilesDict fbHtml css fbJs readme license_txt,
        llm := some rest }
    | (.ok h, rest) =>
      match llmCall rest with
      | (.error _, rest2) =>
        { files := genFilesDict fbHtml css fbJs readme license_txt,
          llm := some rest2 }
      | (.ok j, rest2) =>
        { files := genFilesDict (pyStrip h) css (pyStrip j) readme license_txt,
          llm := some rest2 }

/-! ### github_pages.py — requests, responses, abstract client

Each `httpx` call the module makes is represented by a `Request` value
carrying exactly the data the Python code puts in the URL and JSON
payload (the bearer token and fixed headers, identical on every call,
are carried by the client and omitted).  A client maps a request to a
response or a transport-level error, threading a state (the remote
host's state for the semantic model, the remaining script for scripted
clients). -/

inductive Request where
  /-- `GET /repos/{owner}/{repo}` -/
  | getRepo (owner repo : String)
  /-- `POST /user/repos` with `{"name": name, "private": priv, "auto_init": autoInit}` -/
  | createRepo (name : String) (priv autoInit : Bool)
  /-- `GET /repos/{owner}/{repo}/contents/{path}` -/
  | getContents (owner repo path : String)
  /-- `PUT /repos/{owner}/{repo}/contents/{path}` with
      `{"message", "content", "branch"}` and optionally `"sha"` -/
  | putContents (owner repo path message contentB64 branch : String)
      (sha : Option String)
  /-- `GET /repos/{owner}/{repo}/git/ref/{ref}` -/
  | getRef (owner repo ref : String)
  /-- `POST /repos/{owner}/{repo}/pages` with `{"source": {"branch", "path"}}` -/
  | postPages (owner repo branch path : String)
  /-- `PUT /repos/{owner}/{repo}/pages` with the same payload -/
  | putPages (owner repo branch path : String)
  /-- `GET /repos/{owner}/{repo}/pages` -/
  | getPages (owner repo : String)
deriving DecidableEq, Repr

/-- A JSON value appearing in a response body: a string, or a one-level
    object (only `{"object": {"sha": ...}}` of the ref endpoint needs it). -/
inductive BVal where
  | s (v : String)
  | o (fields : List (String × String))
deriving DecidableEq, Repr

/-- A response body: the JSON object returned by `r.json()`. -/
abbrev Body := List (String × BVal)

/-- `data.get(key)` returning a string, `None` otherwise. -/
def bodyGetStr (b : Body) (k : String) : Option String :=
  match dlookup b k with
  | some (.s v) => some v
  | _ => none

/-- `data[key]` on a string field (`KeyError`/`TypeError` ⇒ error). -/
def bodyIdxStr (b : Body) (k : String) : Except String String :=
  match dlookup b k with
  | some (.s v) => .ok v
  | _ => .error ("KeyError: " ++ k)

/-- `data["object"]["sha"]` of the ref endpoint. -/
def bodyRefSha (b : Body) : Except String String :=
  match dlookup b "object" with
  | some (.o fields) =>
    match dlookup fields "sha" with
    | some v => .ok v
    | none => .error "KeyError: sha"
  | _ => .error "KeyError: object"

/-- An HTTP response (status code and parsed JSON body). -/
structure HttpResp where
  status : Nat
  body : Body
deriving DecidableEq, Repr

/-- `httpx.Response.raise_for_status()`: error unless the status is 2xx. -/
def raise_for_status (r : HttpResp) : Except String HttpResp :=
  if 200 ≤ r.status ∧ r.status < 300 then .ok r
  else .error ("HTTPStatusError: " ++ toString r.status)

/-- A stateful request handler: transport errors are `Except.error`. -/
def Client (σ : Type) := Request → σ → Except String HttpResp × σ

/-- `github_pages.ensure_repo_exists(owner, repo, token)` over a client.
    (The `token` parameter only feeds the auth header and is carried by
    the client.)  Returns `(repo_html_url, repo_api_url)`. -/
def ensure_repo_exists {σ : Type} (client : Client σ) (owner repo : String)
    (s : σ) : Except String (String × String) × σ :=
  match client (.getRepo owner repo) s with
  | (.error e, s1) => (.error e, s1)
  | (.ok r, s1) =>
    if r.status = 404 then
      match client (.createRepo repo false true) s1 with
      | (.error e, s2) => (.error e, s2)
      | (.ok c, s2) =>
        match raise_for_status c with
        | .error e => (.error e, s2)
        | .ok c' =>
          match bodyIdxStr c'.body "html_url", bodyIdxStr c'.body "url" with
          | .ok h, .ok u => (.ok (h, u), s2)
          | .error e, _ => (.error e, s2)
          | _, .error e => (.error e, s2)
    else
      match raise_for_status r with
      | .error e => (.error e, s1)
      | .ok r' =>
        match bodyIdxStr r'.body "html_url", bodyIdxStr r'.body "url" with
        | .ok h, .ok u => (.ok (h, u), s1)
        | .error e, _ => (.error e, s1)
        | _, .error e => (.error e, s1)

/-- `github_pages._get_sha_if_exists`: `None` for any non-200 status
    (no raise), the body's `sha` field otherwise. -/
def _get_sha_if_exists {σ : Type} (client : Client σ) (owner repo path : String)
    (s : σ) : Except String (Option String) × σ :=
  match client (.getContents owner repo path) s with
  | (.error e, s1) => (.error e, s1)
  | (.ok g, s1) =>
    (.ok (if g.status = 200 then bodyGetStr g.body "sha" else none), s1)

/-- Python truthiness of the looked-up sha (`if sha:`), deciding whether
    the write payload includes a `"sha"` field. -/
def shaArgOf (sha : Option String) : Option String :=
  match sha with
  | some v => if v = "" then none else some v
  | none => none

/-- The per-file loop of `commit_files`: look up the current content SHA,
    then `PUT` the file (including the SHA when present) and
    `raise_for_status`; abort on the first failure. -/
def commitLoop {σ : Type} (client : Client σ) (owner repo message : String) :
    List (String × ByteStr) → σ → Except String Unit × σ
  | [], s => (.ok (), s)
  | (path, contentBytes) :: rest, s =>
    match _get_sha_if_exists client owner repo path s with
    | (.error e, s1) => (.error e, s1)
    | (.ok sha, s1) =>
      match client (.putContents owner repo path message
          (b64encode contentBytes) "main" (shaArgOf sha)) s1 with
      | (.error e, s2) => (.error e, s2)
      | (.ok r, s2) =>
        match raise_for_status r with
        | .error e => (.error e, s2)
        | .ok _ => commitLoop client owner repo message rest s2

/-- `github_pages.commit_files(owner, repo, token, files, message)`:
    write each file in mapping order, then resolve `heads/main` and
    return `ref.json()["object"]["sha"]`. -/
def commit_files {σ : Type} (client : Client σ) (owner repo : String)
    (files : List (String × ByteStr)) (message : String) (s : σ) :
    Except String String × σ :=
  match commitLoop client owner repo message files s with
  | (.error e, s1) => (.error e, s1)
  | (.ok _, s1) =>
    match client (.getRef owner repo "heads/main") s1 with
    | (.error e, s2) => (.error e, s2)
    | (.ok ref, s2) =>
      match raise_for_status ref with
      | .error e => (.error e, s2)
      | .ok ref' =>
        match bodyRefSha ref'.body with
        | .ok sha => (.ok sha, s2)
        | .error e => (.error e, s2)

/-- The URL-truthiness chain
    `data.get("html_url") or data.get("url") or f"https://{owner}.github.io/{repo}/"`. -/
def pagesUrlOf (b : Body) (owner repo : String) : String :=
  match bodyGetStr b "html_url" with
  | some v =>
    if v = "" then
      match bodyGetStr b "url" with
      | some u => if u = "" then "https://" ++ owner ++ ".github.io/" ++ repo ++ "/" else u
      | none => "https://" ++ owner ++ ".github.io/" ++ repo ++ "/"
    else v
  | none =>
    match bodyGetStr b "url" with
    | some u => if u = "" then "https://" ++ owner ++ ".github.io/" ++ repo ++ "/" else u
    | none => "https://" ++ owner ++ ".github.io/" ++ repo ++ "/"

/-- `github_pages.enable_pages_root(owner, repo, token)`:
    `POST .../pages`; if the status is not 201/204, `PUT .../pages`
    *without checking its response status*; finally `GET .../pages`
    (with `raise_for_status`) and return the pages URL. -/
def enable_pages_root {σ : Type} (client : Client σ) (owner repo : String)
    (s : σ) : Except String String × σ :=
  match client (.postPages owner repo "main" "/") s with
  | (.error e, s1) => (.error e, s1)
  | (.ok r, s1) =>
    if r.status = 201 ∨ r.status = 204 then
      match client (.getPages owner repo) s1 with
      | (.error e, s2) => (.error e, s2)
      | (.ok g, s2) =>
        match raise_for_status g with
        | .error e => (.error e, s2)
        | .ok g' => (.ok (pagesUrlOf g'.body owner repo), s2)
    else
      match client (.putPages owner repo "main" "/") s1 with
      | (.error e, s2) => (.error e, s2)
      | (.ok _, s2) =>
        match client (.getPages owner repo) s2 with
        | (.error e, s3) => (.error e, s3)
        | (.ok g, s3) =>
          match raise_for_status g with
          | .error e => (.error e, s3)
          | .ok g' => (.ok (pagesUrlOf g'.body owner repo), s3)

/-! ### A semantic model of the GitHub host

`GhState` holds the remote state the module manipulates: whether the
target repository exists, its reported URLs, the committed files
(path ↦ (content sha, stored base64 content)), the head commit of
`main`, and the Pages configuration.  `fresh` numbers newly minted SHAs.
`brokenPut` injects server-side failures: a `PUT /contents` on one of
these paths answers 500.  Every served request is appended to `log`
together with the status returned, which makes the request choreography
of the Python code observable in theorems. -/

structure GhState where
  user : String
  repoExists : Bool
  repoHtmlUrl : String
  repoApiUrl : String
  files : List (String × String × String)
  headSha : String
  pagesConfigured : Bool
  pagesHtmlUrl : Option String
  fresh : Nat
  brokenPut : List String
  log : List (Request × Nat)
deriving Repr

/-- Content sha freshly minted for the `fresh` counter value. -/
def mkSha (n : Nat) : String := "sha" ++ toString n

/-- Head commit id freshly minted for the `fresh` counter value. -/
def mkCommit (n : Nat) : String := "commit" ++ toString n

/-- `html_url` of a repository. -/
def mkHtmlUrl (owner name : String) : String :=
  "https://github.com/" ++ owner ++ "/" ++ name

/-- API `url` of a repository. -/
def mkApiUrl (owner name : String) : String :=
  "https://api.github.com/repos/" ++ owner ++ "/" ++ name

/-- Pages URL of a repository. -/
def mkPagesUrl (owner name : String) : String :=
  "https://" ++ owner ++ ".github.io/" ++ name ++ "/"

/-- Body answered for the repository endpoints. -/
def repoBody (s : GhState) : Body :=
  [("html_url", .s s.repoHtmlUrl), ("url", .s s.repoApiUrl)]

/-- Lookup of a committed file. -/
def ghFile (s : GhState) (path : String) : Option (String × String) :=
  dlookup s.files path

/-- The semantic host: how each request is served and how it changes the
    remote state.  The response status is recorded in the log. -/
def ghServeCore (req : Request) (s : GhState) : HttpResp × GhState :=
  match req with
  | .getRepo _ _ =>
    if s.repoExists then ({ status := 200, body := repoBody s }, s)
    else ({ status := 404, body := [] }, s)
  | .createRepo name _ _ =>
    if s.repoExists then ({ status := 422, body := [] }, s)
    else
      let h := mkHtmlUrl s.user name
      let u := mkApiUrl s.user name
      ({ status := 201, body := [("html_url", .s h), ("url", .s u)] },
       { s with repoExists := true, repoHtmlUrl := h, repoApiUrl := u,
                headSha := mkCommit s.fresh, fresh := s.fresh + 1 })
  | .getContents _ _ path =>
    if s.repoExists then
      match ghFile s path with
      | some (sha, _) => ({ status := 200, body := [("sha", .s sha)] }, s)
      | none => ({ status := 404, body := [] }, s)
    else ({ status := 404, body := [] }, s)
  | .putContents _ _ path _ contentB64 _ shaArg =>
    if ¬ s.repoExists then ({ status := 404, body := [] }, s)
    else if path ∈ s.brokenPut then ({ status := 500, body := [] }, s)
    else
      match ghFile s path, shaArg with
      | none, none =>
        ({ status := 201, body := [("content", .o [("sha", mkSha s.fresh)])] },
         { s with files := dictInsert s.files path (mkSha s.fresh, contentB64),
                  headSha := mkCommit s.fresh, fresh := s.fresh + 1 })
      | none, some _ => ({ status := 422, body := [] }, s)
      | some _, none => ({ status := 422, body := [] }, s)
      | some (sha, _), some given =>
        if given = sha then
          ({ status := 200, body := [("content", .o [("sha", mkSha s.fresh)])] },
           { s with files := dictInsert s.files path (mkSha s.fresh, contentB64),
                    headSha := mkCommit s.fresh, fresh := s.fresh + 1 })
        else ({ status := 409, body := [] }, s)
  | .getRef _ _ _ =>
    if s.repoExists then
      ({ status := 200, body := [("object", .o [("sha", s.headSha)])] }, s)
    else ({ status := 404, body := [] }, s)
  | .postPages owner repo _ _ =>
    if ¬ s.repoExists then ({ status := 404, body := [] }, s)
    else if s.pagesConfigured then ({ status := 409, body := [] }, s)
    else
      ({ status := 201, body := [] },
       { s with pagesConfigured := true,
                pagesHtmlUrl := some (mkPagesUrl owner repo) })
  | .putPages _ _ _ _ =>
    if s.repoExists ∧ s.pagesConfigured then ({ status := 204, body := [] }, s)
    else ({ status := 404, body := [] }, s)
  | .getPages _ _ =>
    if s.pagesConfigured then
      ({ status := 200,
         body := match s.pagesHtmlUrl with
                 | some u => [("html_url", .s u)]
                 | none => [] }, s)
    else ({ status := 404, body := [] }, s)

/-- The semantic host as a `Client`, recording every request served. -/
def ghServe : Client GhState := fun req s =>
  let (resp, s') := ghServeCore req s
  (.ok resp, { s' with log := s'.log ++ [(req, resp.status)] })

/-- A scripted client: answers successive requests with the entries of a
    response script (exhaustion counts as a transport error).  Used to
    state the error-policy theorems. -/
def scriptClient : Client (List (Except String HttpResp)) := fun _ s =>
  match s with
  | [] => (.error "no scripted response", [])
  | r :: rest => (r, rest)

/-! ### app.py -/

/-- The process configuration read from the environment at startup
    (`STUDENT_EMAIL`, `STUDENT_SECRET`, `GH_USERNAME`, `GH_REPO_PREFIX`). -/
structure Config where
  studentEmail : String
  studentSecret : String
  ghUsername : String
  ghRepoPrefix : String
deriving Repr

/-- `app._repo_name`: `f"{GH_REPO_PREFIX}{task}".replace("/", "-").replace(" ", "-")`. -/
def _repo_name (cfg : Config) (task : String) : String :=
  pyReplaceChar ' ' '-' (pyReplaceChar '/' '-' (cfg.ghRepoPrefix ++ task))

/-- `app._auth`: raise `HTTPException(401)` unless both credentials match. -/
def _auth (cfg : Config) (p : SubmitPayload) : Except (Nat × String) Unit :=
  if p.email ≠ cfg.studentEmail ∨ p.secret ≠ cfg.studentSecret then
    .error (401, "email/secret mismatch")
  else .ok ()

/-- Step 4 of `_deploy_once`: build `files_to_commit` by inserting the
    UTF-8 encoded generated texts, then the decoded attachment bytes
    (so an attachment overwrites a generated file at the same path). -/
def mergeFiles (appFilesText : List (String × String))
    (attachmentFiles : List (String × ByteStr)) : List (String × ByteStr) :=
  let d := appFilesText.foldl
    (fun acc e => dictInsert acc e.1 (utf8Encode e.2)) []
  attachmentFiles.foldl (fun acc e => dictInsert acc e.1 e.2) d

/-- The state a request pipeline threads: the remote GitHub host and the
    scripted generation backend (`none` = no backend configured). -/
structure PipeState where
  gh : GhState
  llm : Option LlmScript
deriving Repr

/-- `app._deploy_once(payload)`: ensure repo → decode attachments →
    generate app files → merge → commit to main → enable pages.
    Returns `(repo_html_url, pages_url, commit_sha)`; any uncaught
    exception of the sequence is `Except.error`. -/
def _deploy_once (cfg : Config) (p : SubmitPayload) (st : PipeState) :
    Except String (String × String × String) × PipeState :=
  let repo := _repo_name cfg p.task
  match ensure_repo_exists ghServe cfg.ghUsername repo st.gh with
  | (.error e, g1) => (.error e, { st with gh := g1 })
  | (.ok (repoHtmlUrl, _repoApi), g1) =>
    match decode_and_collect_attachments p.attachments with
    | .error e => (.error e, { st with gh := g1 })
    | .ok attachmentFiles =>
      let gen := generate_app_files st.llm p.brief p.checks
        (attachmentFiles.map Prod.fst)
      let filesToCommit := mergeFiles gen.files attachmentFiles
      let message :=
        (if p.round > 1 then "revise" else "initial") ++ ": " ++ p.task
      match commit_files ghServe cfg.ghUsername repo filesToCommit message g1 with
      | (.error e, g2) => (.error e, { gh := g2, llm := gen.llm })
      | (.ok commitSha, g2) =>
        match enable_pages_root ghServe cfg.ghUsername repo g2 with
        | (.error e, g3) => (.error e, { gh := g3, llm := gen.llm })
        | (.ok pagesUrl, g3) =>
          (.ok (repoHtmlUrl, pagesUrl, commitSha), { gh := g3, llm := gen.llm })

/-- A JSON value of the inbound/outbound application bodies. -/
inductive JVal where
  | s (v : String)
  | i (v : Int)
deriving DecidableEq, Repr

/-- A JSON object, keeping Python's dict insertion order. -/
abbrev JObj := List (String × JVal)

/-- The `notify_body` dict literal of `submit` (in source order). -/
def notifyBody (p : SubmitPayload) (repoUrl pagesUrl commitSha : String)
    (elapsedMs : Int) : JObj :=
  [("email", .s p.email), ("task", .s p.task), ("round", .i p.round),
   ("nonce", .s p.nonce), ("repo_url", .s repoUrl),
   ("pages_url", .s pagesUrl), ("commit_sha", .s commitSha),
   ("latency_ms", .i elapsedMs)]

/-- The response dict literal of `submit` (in source order). -/
def responseBody (p : SubmitPayload) (repoUrl pagesUrl commitSha : String) : JObj :=
  [("email", .s p.email), ("task", .s p.task), ("round", .i p.round),
   ("nonce", .s p.nonce), ("repo_url", .s repoUrl),
   ("commit_sha", .s commitSha), ("pages_url", .s pagesUrl)]

/-- Observable outcome of one `POST /submit` request:
    * `response`: the JSON body returned, or `(status, detail)` for an
      `HTTPException` (401) / an unhandled pipeline error (500);
    * `notified`: the `(url, body)` pairs POSTed to the evaluation
      callback (the notifier's own result is swallowed by `_notify`);
    * `state`: the final host/backend state. -/
structure SubmitOutcome where
  response : Except (Nat × String) JObj
  notified : List (String × JObj)
  state : PipeState
deriving Repr

/-- `app.submit(payload)`.  `elapsedMs` stands for the wall-clock latency
    measurement `int((time.time() - t0) * 1000)`, an input of the
    embedding. -/
def submit (cfg : Config) (p : SubmitPayload) (elapsedMs : Int)
    (st : PipeState) : SubmitOutcome :=
  match _auth cfg p with
  | .error e => { response := .error e, notified := [], state := st }
  | .ok _ =>
    match _deploy_once cfg p st with
    | (.error e, st') =>
      { response := .error (500, e), notified := [], state := st' }
    | (.ok (repoUrl, pagesUrl, commitSha), st') =>
      let nb := notifyBody p repoUrl pagesUrl commitSha elapsedMs
      { response := .ok (responseBody p repoUrl pagesUrl commitSha),
        notified := [(p.evaluation_url, nb)], state := st' }

/-- Concrete host state used by the C3 witness: the repository exists
    and already stores `index.html` with content SHA `sha9`. -/
def wGh3 : GhState :=
  { user := "u", repoExists := true, repoHtmlUrl := "https://github.com/u/r",
    repoApiUrl := "https://api.github.com/repos/u/r",
    files := [("index.html", "sha9", "b64old")], headSha := "commit9",
    pagesConfigured := false, pagesHtmlUrl := none, fresh := 10,
    brokenPut := [], log := [] }

/-- Concrete host state used by the C8 witness: the repository exists,
    stores `index.html`, and the write of `script.js` is fault-injected
    to answer 500. -/
def wGh8 : GhState :=
  { user := "u", repoExists := true, repoHtmlUrl := "https://github.com/u/r",
    repoApiUrl := "https://api.github.com/repos/u/r",
    files := [("index.html", "sha9", "b64old")], headSha := "commit9",
    pagesConfigured := false, pagesHtmlUrl := none, fresh := 10,
    brokenPut := ["script.js"], log := [] }

/-! ### Specification vocabulary for the commit choreography -/

/-- Projection of the host's file store to a path ↦ content-sha map. -/
def shaMapOf (s : GhState) : List (String × String) :=
  s.files.map (fun e => (e.1, e.2.1))

/-- Host invariant: every stored content SHA is nonempty (as real GitHub
    SHAs are); this is what makes the Python truthiness test `if sha:`
    agree with "the file exists". -/
def ShasOk (s : GhState) : Prop := ∀ e ∈ s.files, e.2.1 ≠ ""

/-- The request/status trace `commit_files` produces for a file list,
    given the path ↦ sha map the host currently stores: for each path in
    mapping order, a content lookup (200 when the file exists, else 404)
    followed by a write whose payload includes the current sha exactly
    when the file exists (an update, answered 200) and omits it otherwise
    (a create, answered 201). -/
def commitBody (owner repo message : String) :
    List (String × ByteStr) → List (String × String) → Nat → List (Request × Nat)
  | [], _, _ => []
  | (p, bs) :: rest, known, fresh =>
    match dlookup known p with
    | some sha =>
      (.getContents owner repo p, 200) ::
      (.putContents owner repo p message (b64encode bs) "main" (some sha), 200) ::
      commitBody owner repo message rest (dictInsert known p (mkSha fresh)) (fresh + 1)
    | none =>
      (.getContents owner repo p, 404) ::
      (.putContents owner repo p message (b64encode bs) "main" none, 201) ::
      commitBody owner repo message rest (dictInsert known p (mkSha fresh)) (fresh + 1)

/-! ### Helper lemmas on association lists -/

theorem dlookup_dictInsert_self {β : Type} (l : List (String × β)) (k : String)
    (v : β) : dlookup (dictInsert l k v) k = some v := by
  induction l with
  | nil => simp [dictInsert, dlookup]
  | cons e rest ih =>
    by_cases h : e.1 = k
    · simp [dictInsert, dlookup, h]
    · simp [dictInsert, dlookup, h, ih]

theorem dlookup_dictInsert_ne {β : Type} (l : List (String × β)) (ki k : String)
    (v : β) (h : ki ≠ k) : dlookup (dictInsert l ki v) k = dlookup l k := by
  induction l with
  | nil => simp [dictInsert, dlookup, h]
  | cons e rest ih =>
    by_cases he : e.1 = ki
    · simp [dictInsert, dlookup, he, h]
    · simp [dictInsert, dlookup, he, ih]

theorem mem_dictInsert {β : Type} (l : List (String × β)) (k : String) (v : β)
    (e : String × β) (h : e ∈ dictInsert l k v) : e = (k, v) ∨ e ∈ l := by
  induction l with
  | nil => simpa [dictInsert] using h
  | cons e' rest ih =>
    by_cases he : e'.1 = k
    · simp only [dictInsert, if_pos he, List.mem_cons] at h
      rcases h with h | h
      · left; rw [h, ← he]
      · right; exact List.mem_cons_of_mem _ h
    · simp only [dictInsert, if_neg he, List.mem_cons] at h
      rcases h with h | h
      · right; rw [h]; exact List.mem_cons_self _ _
      · rcases ih h with h' | h'
        · left; exact h'
        · right; exact List.mem_cons_of_mem _ h'

theorem keys_dictInsert {β : Type} (l : List (String × β)) (k : String) (v : β) :
    (dictInsert l k v).map Prod.fst =
      if k ∈ l.map Prod.fst then l.map Prod.fst else l.map Prod.fst ++ [k] := by
  induction l with
  | nil => simp [dictInsert]
  | cons e rest ih =>
    by_cases he : e.1 = k
    · simp [dictInsert, he]
    · have hne : ¬ k = e.1 := fun hh => he hh.symm
      by_cases hk : k ∈ rest.map Prod.fst
      · simp [dictInsert, he, ih, hk, hne]
      · simp [dictInsert, he, ih, hk, hne]

/-! ### Theorems for the claims -/

section Claims

/-- C9: for every request whose email or secret does not match the
    configured credentials, `submit` returns the 401 unauthorized
    response and performs no side effect at all: the GitHub host state
    (including its request log), the generation backend script and the
    list of evaluation-callback posts are exactly as before the call.
    Since the whole state `st` is returned unchanged and the response is
    independent of the payload's attachments, this also shows the
    attachment decoder is never consulted (the witness uses an
    attachment that would make the decoder raise). -/
theorem C9_unauthorized_no_side_effects (cfg : Config) (p : SubmitPayload)
    (elapsedMs : Int) (st : PipeState)
    (h : p.email ≠ cfg.studentEmail ∨ p.secret ≠ cfg.studentSecret) :
    submit cfg p elapsedMs st =
      { response := .error (401, "email/secret mismatch"), notified := [],
        state := st } := by
  simp [submit, _auth, if_pos h]

/-- Witness for C9: a concrete request with a wrong secret — and an
    attachment whose inline payload would make `base64.b64decode` raise —
    is rejected with 401 and leaves the host log, backend script and
    callback list untouched. -/
theorem C9_unauthorized_no_side_effects_witness :
    (("a@b.com" : String) ≠ "a@b.com" ∨ ("wrong" : String) ≠ "s") ∧
    submit
      { studentEmail := "a@b.com", studentSecret := "s", ghUsername := "u",
        ghRepoPrefix := "tds-" }
      { email := "a@b.com", secret := "wrong", task := "demo", round := 1,
        nonce := "n1", brief := "b", checks := [],
        evaluation_url := "http://eval.test/cb",
        attachments := [{ name := "f", url := "data:text/plain;base64,A" }] }
      42
      { gh := { user := "u", repoExists := false, repoHtmlUrl := "",
                repoApiUrl := "", files := [], headSha := "",
                pagesConfigured := false, pagesHtmlUrl := none, fresh := 0,
                brokenPut := [], log := [] }, llm := none } =
      { response := .error (401, "email/secret mismatch"), notified := [],
        state := { gh := { user := "u", repoExists := false, repoHtmlUrl := "",
                           repoApiUrl := "", files := [], headSha := "",
                           pagesConfigured := false, pagesHtmlUrl := none,
                           fresh := 0, brokenPut := [], log := [] },
                   llm := none } } :=
  ⟨Or.inr (by decide), C9_unauthorized_no_side_effects _ _ _ _ (Or.inr (by decide))⟩

theorem dlookup_foldIns_not_mem (l : List (String × ByteStr))
    (d : List (String × ByteStr)) (k : String) (h : k ∉ l.map Prod.fst) :
    dlookup (l.foldl (fun acc e => dictInsert acc e.1 e.2) d) k = dlookup d k := by
  induction l generalizing d with
  | nil => rfl
  | cons e rest ih =>
    simp only [List.map_cons, List.mem_cons, not_or] at h
    simp only [List.foldl_cons]
    rw [ih _ h.2, dlookup_dictInsert_ne _ _ _ _ (fun hh => h.1 hh.symm)]

theorem dlookup_foldIns_mem (atts : List (String × ByteStr))
    (d : List (String × ByteStr)) (k : String) (hmem : k ∈ atts.map Prod.fst)
    (hnd : (atts.map Prod.fst).Nodup) :
    dlookup (atts.foldl (fun acc e => dictInsert acc e.1 e.2) d) k =
      dlookup atts k := by
  induction atts generalizing d with
  | nil => cases hmem
  | cons e rest ih =>
    simp only [List.map_cons, List.nodup_cons] at hnd
    simp only [List.foldl_cons]
    by_cases hk : e.1 = k
    · subst hk
      rw [dlookup_foldIns_not_mem _ _ _ hnd.1, dlookup_dictInsert_self]
      simp [dlookup]
    · simp only [List.map_cons, List.mem_cons] at hmem
      rcases hmem with hmem | hmem
      · exact absurd hmem.symm hk
      · rw [ih _ hmem hnd.2]
        simp [dlookup, hk]

/-- C10: in the merged file set `_deploy_once` passes to `commit_files`,
    generated texts are inserted first and decoded attachments second, so
    an attachment whose filename equals a generated path (e.g. one of
    index.html, style.css, script.js, README.md, LICENSE) wins the
    collision: the merged mapping associates that path with the
    attachment's decoded bytes, i.e. exactly what the attachment mapping
    associates with it. -/
theorem C10_attachments_override_generated (gen : List (String × String))
    (atts : List (String × ByteStr)) (path : String)
    (hmem : path ∈ atts.map Prod.fst) (hnd : (atts.map Prod.fst).Nodup) :
    dlookup (mergeFiles gen atts) path = dlookup atts path := by
  unfold mergeFiles
  exact dlookup_foldIns_mem atts _ path hmem hnd

/-- Witness for C10: an attachment named `index.html` (decoded bytes
    `[1, 2, 3]`) overrides the generated `index.html` text in the merged
    file set. -/
theorem C10_attachments_override_generated_witness :
    (("index.html" : String) ∈
      ([("index.html", ([1, 2, 3] : ByteStr))].map Prod.fst)) ∧
    dlookup (mergeFiles [("index.html", "<html></html>")]
        [("index.html", [1, 2, 3])]) "index.html" =
      dlookup [("index.html", ([1, 2, 3] : ByteStr))] "index.html" :=
  ⟨by decide,
   C10_attachments_override_generated _ _ _ (by decide) (by decide)⟩

/-- C6: with a configured generation backend, a failure of either model
    call (the page-markup call or the subsequent script call) makes
    `generate_app_files` fall back to the static templates for **both**
    `index.html` and `script.js`; model output is used only when both
    calls succeed, so generated markup is never paired with fallback
    script or vice versa.  The remaining script after the call shows that
    a failed call consumes exactly one backend call and is never retried:
    one call is made when the first fails, two otherwise. -/
theorem C6_fallback_is_all_or_nothing (brief : String)
    (checks attachments : List String) :
    (∀ e rest, generate_app_files (some (.error e :: rest)) brief checks attachments =
      { files := genFilesDict (_fallback_index_html brief checks attachments)
          _style_css _fallback_script_js (readme_md brief checks)
          (MIT_LICENSE "2025"), llm := some rest }) ∧
    (∀ h e rest, generate_app_files (some (.ok h :: .error e :: rest)) brief checks attachments =
      { files := genFilesDict (_fallback_index_html brief checks attachments)
          _style_css _fallback_script_js (readme_md brief checks)
          (MIT_LICENSE "2025"), llm := some rest }) ∧
    (∀ h j rest, generate_app_files (some (.ok h :: .ok j :: rest)) brief checks attachments =
      { files := genFilesDict (pyStrip h) _style_css (pyStrip j)
          (readme_md brief checks) (MIT_LICENSE "2025"), llm := some rest }) ∧
    (generate_app_files (some []) brief checks attachments =
      { files := genFilesDict (_fallback_index_html brief checks attachments)
          _style_css _fallback_script_js (readme_md brief checks)
          (MIT_LICENSE "2025"), llm := some [] }) := by
  refine ⟨fun e rest => rfl, fun h e rest => rfl, fun h j rest => rfl, rfl⟩

/-- C4 counterexample: the claim "the decoder never raises, whatever the
    content of the url field" is false on the code.  The url
    `data:text/plain;base64,A` matches `DATA_URI_RE` (so the entry is not
    skipped), but `base64.b64decode("A")` raises `binascii.Error`
    ("number of data characters (1) cannot be 1 more than a multiple of
    4"), which propagates out of `decode_and_collect_attachments`. -/
theorem C4_decoder_raises_counterexample :
    decode_and_collect_attachments
        [{ name := "f", url := "data:text/plain;base64,A" }] =
      .error "Invalid base64-encoded string" := by
  rfl

theorem decode_go_spec (w : Char → Bool) (atts : List Attachment)
    (hok : ∀ a ∈ atts, ∀ b64, dataUriMatchW w a.url.data = some b64 →
        (b64decodePy b64).isOk = true) :
    ∀ out : List (String × ByteStr),
      ∃ m, decode_and_collect_attachmentsW.go w out atts = .ok m ∧
        ∀ n bs, (n, bs) ∈ m → (n, bs) ∈ out ∨
          (n ≠ "" ∧ ∃ a ∈ atts, a.name = n ∧ pyStartsWith a.url "data:" = true ∧
            ∃ b64, dataUriMatchW w a.url.data = some b64 ∧ b64decodePy b64 = .ok bs) := by
  induction atts with
  | nil =>
    intro out
    exact ⟨out, rfl, fun n bs hmem => Or.inl hmem⟩
  | cons a rest ih =>
    intro out
    have hokrest : ∀ x ∈ rest, ∀ b64, dataUriMatchW w x.url.data = some b64 →
        (b64decodePy b64).isOk = true :=
      fun x hx => hok x (List.mem_cons_of_mem _ hx)
    have weaken :
        ∀ (m : List (String × ByteStr)),
          (∀ n bs, (n, bs) ∈ m → (n, bs) ∈ out ∨
            (n ≠ "" ∧ ∃ x ∈ rest, x.name = n ∧ pyStartsWith x.url "data:" = true ∧
              ∃ b64, dataUriMatchW w x.url.data = some b64 ∧ b64decodePy b64 = .ok bs)) →
          ∀ n bs, (n, bs) ∈ m → (n, bs) ∈ out ∨
            (n ≠ "" ∧ ∃ x ∈ a :: rest, x.name = n ∧ pyStartsWith x.url "data:" = true ∧
              ∃ b64, dataUriMatchW w x.url.data = some b64 ∧ b64decodePy b64 = .ok bs) := by
      intro m hprop n bs hmem
      rcases hprop n bs hmem with h | ⟨hne, x, hx, hrest⟩
      · exact Or.inl h
      · exact Or.inr ⟨hne, x, List.mem_cons_of_mem _ hx, hrest⟩
    by_cases hname : a.name = ""
    · obtain ⟨m, hm, hprop⟩ := ih hokrest out
      refine ⟨m, ?_, weaken m hprop⟩
      simpa [decode_and_collect_attachmentsW.go, if_pos hname] using hm
    · by_cases hstart : pyStartsWith a.url "data:" = true
      · rcases hmatch : dataUriMatchW w a.url.data with _ | b64
        · obtain ⟨m, hm, hprop⟩ := ih hokrest out
          refine ⟨m, ?_, weaken m hprop⟩
          simp only [decode_and_collect_attachmentsW.go, if_neg hname, hstart,
            if_true, hmatch]
          exact hm
        · have hdec := hok a (List.mem_cons_self _ _) b64 hmatch
          rcases hb : b64decodePy b64 with e | bytes
          · rw [hb] at hdec; cases hdec
          · obtain ⟨m, hm, hprop⟩ := ih hokrest (dictInsert out a.name bytes)
            refine ⟨m, ?_, ?_⟩
            · simp only [decode_and_collect_attachmentsW.go, if_neg hname,
                hstart, if_true, hmatch, hb]
              exact hm
            · intro n bs hmem
              rcases hprop n bs hmem with h | ⟨hne, x, hx, hrest⟩
              · rcases mem_dictInsert out a.name bytes (n, bs) h with h' | h'
                · rw [Prod.mk.injEq] at h'
                  obtain ⟨hn1, hn2⟩ := h'
                  subst hn1; subst hn2
                  exact Or.inr ⟨hname, a, List.mem_cons_self _ _, rfl, hstart,
                    b64, hmatch, hb⟩
                · exact Or.inl h'
              · exact Or.inr ⟨hne, x, List.mem_cons_of_mem _ hx, hrest⟩
      · obtain ⟨m, hm, hprop⟩ := ih hokrest out
        refine ⟨m, ?_, weaken m hprop⟩
        simp only [decode_and_collect_attachmentsW.go, if_neg hname]
        rw [if_neg hstart]
        exact hm

/-- For every word-class predicate that accepts the letters of
    `text/plain` and rejects `;` — as Python's Unicode-aware `\w` does —
    the url `data:text/plain;base64,A` matches `DATA_URI_RE` and the
    decoder raises `binascii.Error`.  This shows the counterexample
    below is not an artifact of the ASCII instance: it holds at the
    program's actual word class, whatever its full Unicode extent. -/
theorem decodeW_raises_for_every_word_class (w : Char → Bool)
    (hsemi : w ';' = false)
    (hletters : ∀ c ∈ ("textplain" : String).data, w c = true) :
    decode_and_collect_attachmentsW w
      [{ name := "f", url := "data:text/plain;base64,A" }] =
      .error "Invalid base64-encoded string" := by
  have ht : w 't' = true := hletters 't' (by decide)
  have he : w 'e' = true := hletters 'e' (by decide)
  have hx : w 'x' = true := hletters 'x' (by decide)
  have hp : w 'p' = true := hletters 'p' (by decide)
  have hl : w 'l' = true := hletters 'l' (by decide)
  have ha : w 'a' = true := hletters 'a' (by decide)
  have hi : w 'i' = true := hletters 'i' (by decide)
  have hn : w 'n' = true := hletters 'n' (by decide)
  have hmatch : dataUriMatchW w ("data:text/plain;base64,A" : String).data =
      some ("A" : String).data := by
    show dataUriMatchW w
      ('d' :: 'a' :: 't' :: 'a' :: ':' :: ("text/plain;base64,A" : String).data) = _
    simp [dataUriMatchW, isMimeCharW, List.takeWhile, ht, he, hx, hp, hl, ha,
      hi, hn, hsemi, isB64Char]
  show decode_and_collect_attachmentsW.go w [] [{ name := "f", url := "data:text/plain;base64,A" }] = _
  simp only [decode_and_collect_attachmentsW.go, hmatch]
  rfl

/-- The same raise on a url whose mime part is a non-ASCII word
    character, at a word class containing it (as Unicode `\w` contains
    `é`): the regex matches `data:é;base64,A` and the decoder raises. -/
theorem decodeW_raises_on_unicode_mime :
    decode_and_collect_attachmentsW (fun c => asciiWordChar c ∨ c = 'é')
      [{ name := "f", url := "data:é;base64,A" }] =
      .error "Invalid base64-encoded string" := by
  rfl

/-- C4 amended: the decoder is raise-free for most malformed inputs —
    entries with an empty name, entries whose url is not a `data:` URI,
    and entries whose url fails the data-URI regex are skipped and never
    appear in the returned mapping — **but** an entry whose url matches
    the regex while its base64 payload has invalid length/padding makes
    `base64.b64decode` raise and the whole call fail (see the
    counterexample).  Provided every regex-matching payload is valid
    base64, the call returns a mapping in which every entry comes from a
    successfully decoded attachment (so skipped entries never reach the
    committed file set).

    The theorem is proved for **every** word-class predicate `w` that
    does not match `;` — Python's Unicode-aware `\w` is such a
    predicate, so the program's regex is an instance of `dataUriMatchW`
    and this statement covers it, ASCII or not. -/
theorem C4_skip_semantics_when_payloads_decode (w : Char → Bool)
    (hsemi : w ';' = false) (atts : List Attachment)
    (hok : ∀ a ∈ atts, ∀ b64, dataUriMatchW w a.url.data = some b64 →
        (b64decodePy b64).isOk = true) :
    ∃ m, decode_and_collect_attachmentsW w atts = .ok m ∧
      ∀ n bs, (n, bs) ∈ m →
        n ≠ "" ∧ ∃ a ∈ atts, a.name = n ∧ pyStartsWith a.url "data:" = true ∧
          ∃ b64, dataUriMatchW w a.url.data = some b64 ∧ b64decodePy b64 = .ok bs := by
  obtain ⟨m, hm, hprop⟩ := decode_go_spec w atts hok []
  refine ⟨m, hm, fun n bs hmem => ?_⟩
  rcases hprop n bs hmem with h | h
  · cases h
  · exact h

/-- Witness for C4 (amended), at the ASCII word-class instance (all the
    urls are ASCII, where `asciiWordChar` agrees with `\w`): a batch
    with one well-formed data URI, one remote URL, one empty name and
    one regex-rejected url decodes to the single well-formed entry
    without raising. -/
theorem C4_skip_semantics_when_payloads_decode_witness :
    (asciiWordChar ';' = false) ∧
    (∀ a ∈ [({ name := "f", url := "data:text/plain;base64,QUJD" } : Attachment),
            { name := "g", url := "http://remote.example/x" },
            { name := "", url := "data:text/plain;base64,QUJD" },
            { name := "h", url := "data:bad stuff" }],
      ∀ b64, dataUriMatchW asciiWordChar a.url.data = some b64 →
        (b64decodePy b64).isOk = true) ∧
    ∃ m, decode_and_collect_attachmentsW asciiWordChar
        [{ name := "f", url := "data:text/plain;base64,QUJD" },
         { name := "g", url := "http://remote.example/x" },
         { name := "", url := "data:text/plain;base64,QUJD" },
         { name := "h", url := "data:bad stuff" }] = .ok m ∧
      ∀ n bs, (n, bs) ∈ m →
        n ≠ "" ∧ ∃ a ∈ [({ name := "f", url := "data:text/plain;base64,QUJD" } : Attachment),
            { name := "g", url := "http://remote.example/x" },
            { name := "", url := "data:text/plain;base64,QUJD" },
            { name := "h", url := "data:bad stuff" }], a.name = n ∧
          pyStartsWith a.url "data:" = true ∧
          ∃ b64, dataUriMatchW asciiWordChar a.url.data = some b64 ∧
            b64decodePy b64 = .ok bs := by
  have hok : ∀ a ∈ [({ name := "f", url := "data:text/plain;base64,QUJD" } : Attachment),
            { name := "g", url := "http://remote.example/x" },
            { name := "", url := "data:text/plain;base64,QUJD" },
            { name := "h", url := "data:bad stuff" }],
      ∀ b64, dataUriMatchW asciiWordChar a.url.data = some b64 →
        (b64decodePy b64).isOk = true := by
    intro a ha b64 hm
    fin_cases ha
    · rw [show dataUriMatchW asciiWordChar ("data:text/plain;base64,QUJD" : String).data =
          some ("QUJD" : String).data from rfl] at hm
      cases hm
      rfl
    · rw [show dataUriMatchW asciiWordChar ("http://remote.example/x" : String).data =
          none from rfl] at hm
      cases hm
    · rw [show dataUriMatchW asciiWordChar ("data:text/plain;base64,QUJD" : String).data =
          some ("QUJD" : String).data from rfl] at hm
      cases hm
      rfl
    · rw [show dataUriMatchW asciiWordChar ("data:bad stuff" : String).data = none from rfl] at hm
      cases hm
  exact ⟨by decide, hok,
    C4_skip_semantics_when_payloads_decode asciiWordChar (by decide) _ hok⟩

theorem ensure_repo_create (s : GhState) (o r : String)
    (h : s.repoExists = false) :
    ensure_repo_exists ghServe o r s =
      (.ok (mkHtmlUrl s.user r, mkApiUrl s.user r),
       { s with repoExists := true,
                repoHtmlUrl := mkHtmlUrl s.user r,
                repoApiUrl := mkApiUrl s.user r,
                headSha := mkCommit s.fresh, fresh := s.fresh + 1,
                log := s.log ++ [(.getRepo o r, 404), (.createRepo r false true, 201)] }) := by
  simp [ensure_repo_exists, ghServe, ghServeCore, h, raise_for_status,
    bodyIdxStr, dlookup]

theorem ensure_repo_existing (s : GhState) (o r : String)
    (h : s.repoExists = true) :
    ensure_repo_exists ghServe o r s =
      (.ok (s.repoHtmlUrl, s.repoApiUrl),
       { s with log := s.log ++ [(.getRepo o r, 200)] }) := by
  simp [ensure_repo_exists, ghServe, ghServeCore, h, raise_for_status,
    bodyIdxStr, repoBody, dlookup]

/-- C2: `ensure_repo_exists` is idempotent against the semantic host:
    (1) when the repository is absent, the lookup answers 404 and the
    operation creates it — the logged creation request carries
    `private = false` (public) and `auto_init = true` — and returns the
    new repository's URLs; (2) when it already exists, the operation
    returns the stored URLs without any create request and without
    failing; (3) hence the operation always succeeds on the semantic
    host, and running it a second time for the same repository returns
    exactly the same URLs as the first run (so a deploy sequence run
    twice never fails due to repository pre-existence); (4) a
    transport-level error of the lookup propagates unchanged; and (5)
    any lookup response other than 404 that is not 2xx raises
    `HTTPStatusError` and fails the operation. -/
theorem C2_ensure_repository_idempotent :
    (∀ (s : GhState) (o r : String), s.repoExists = false →
      ensure_repo_exists ghServe o r s =
        (.ok (mkHtmlUrl s.user r, mkApiUrl s.user r),
         { s with repoExists := true,
                  repoHtmlUrl := mkHtmlUrl s.user r,
                  repoApiUrl := mkApiUrl s.user r,
                  headSha := mkCommit s.fresh, fresh := s.fresh + 1,
                  log := s.log ++ [(.getRepo o r, 404), (.createRepo r false true, 201)] })) ∧
    (∀ (s : GhState) (o r : String), s.repoExists = true →
      ensure_repo_exists ghServe o r s =
        (.ok (s.repoHtmlUrl, s.repoApiUrl),
         { s with log := s.log ++ [(.getRepo o r, 200)] })) ∧
    (∀ (s : GhState) (o r : String),
      (ensure_repo_exists ghServe o r s).1.isOk = true ∧
      (ensure_repo_exists ghServe o r (ensure_repo_exists ghServe o r s).2).1 =
        (ensure_repo_exists ghServe o r s).1) ∧
    (∀ (σ : Type) (client : Client σ) (o r : String) (s : σ) (e : String) (s1 : σ),
      client (.getRepo o r) s = (.error e, s1) →
      ensure_repo_exists client o r s = (.error e, s1)) ∧
    (∀ (σ : Type) (client : Client σ) (o r : String) (s : σ) (resp : HttpResp) (s1 : σ),
      client (.getRepo o r) s = (.ok resp, s1) →
      resp.status ≠ 404 → ¬(200 ≤ resp.status ∧ resp.status < 300) →
      ensure_repo_exists client o r s =
        (.error ("HTTPStatusError: " ++ toString resp.status), s1)) := by
  refine ⟨ensure_repo_create, ensure_repo_existing, ?_, ?_, ?_⟩
  · intro s o r
    cases hb : s.repoExists
    · rw [ensure_repo_create s o r hb]
      refine ⟨rfl, ?_⟩
      dsimp only
      rw [ensure_repo_existing _ o r rfl]
    · rw [ensure_repo_existing s o r hb]
      refine ⟨rfl, ?_⟩
      dsimp only
      rw [ensure_repo_existing
        { s with log := s.log ++ [(Request.getRepo o r, 200)] } o r hb]
  · intro σ client o r s e s1 h
    simp only [ensure_repo_exists, h]
  · intro σ client o r s resp s1 h h404 h2xx
    simp only [ensure_repo_exists, h, if_neg h404, raise_for_status,
      if_neg h2xx]

/-- Witness for C2: a fresh host (repository absent) — the first call
    creates `tds-demo` as public/auto-init and returns its URLs, the
    second call returns the same URLs; and a scripted 401 lookup response
    fails the operation while a scripted transport error propagates. -/
theorem C2_ensure_repository_idempotent_witness :
    (({ user := "u", repoExists := false, repoHtmlUrl := "", repoApiUrl := "",
        files := [], headSha := "", pagesConfigured := false,
        pagesHtmlUrl := none, fresh := 0, brokenPut := [],
        log := [] } : GhState).repoExists = false) ∧
    ensure_repo_exists ghServe "u" "tds-demo"
        { user := "u", repoExists := false, repoHtmlUrl := "", repoApiUrl := "",
          files := [], headSha := "", pagesConfigured := false,
          pagesHtmlUrl := none, fresh := 0, brokenPut := [], log := [] } =
      (.ok ("https://github.com/u/tds-demo",
            "https://api.github.com/repos/u/tds-demo"),
       { user := "u", repoExists := true,
         repoHtmlUrl := "https://github.com/u/tds-demo",
         repoApiUrl := "https://api.github.com/repos/u/tds-demo",
         files := [], headSha := "commit0", pagesConfigured := false,
         pagesHtmlUrl := none, fresh := 1, brokenPut := [],
         log := [(.getRepo "u" "tds-demo", 404),
                 (.createRepo "tds-demo" false true, 201)] }) ∧
    (scriptClient (.getRepo "u" "tds-demo")
        [.ok { status := 401, body := [] }] =
      (.ok { status := 401, body := [] }, []) ∧
     ensure_repo_exists scriptClient "u" "tds-demo"
        [.ok { status := 401, body := [] }] =
      (.error ("HTTPStatusError: " ++ toString 401), []) ∧
     ensure_repo_exists scriptClient "u" "tds-demo"
        [.error "ConnectError"] = (.error "ConnectError", [])) := by
  refine ⟨rfl, ?_, rfl, ?_, ?_⟩
  · have h := C2_ensure_repository_idempotent.1
      { user := "u", repoExists := false, repoHtmlUrl := "", repoApiUrl := "",
        files := [], headSha := "", pagesConfigured := false,
        pagesHtmlUrl := none, fresh := 0, brokenPut := [], log := [] }
      "u" "tds-demo" rfl
    simpa using h
  · exact C2_ensure_repository_idempotent.2.2.2.2 _ scriptClient "u" "tds-demo"
      [.ok { status := 401, body := [] }] { status := 401, body := [] } []
      rfl (by decide) (by decide)
  · exact C2_ensure_repository_idempotent.2.2.2.1 _ scriptClient "u" "tds-demo"
      [.error "ConnectError"] "ConnectError" [] rfl

/-- C5 counterexample: the claim "every non-2xx response from the
    repository host raises … in particular including the responses
    received by EnablePages when creating or updating the pages
    configuration" is false on the code.  On a host whose repository
    exists with Pages already configured, the create request answers 409
    (non-2xx) and the update request answers 204, yet `enable_pages_root`
    does not raise: it falls back to the update call, ignores that call's
    status entirely, and returns the Pages URL from the final read. -/
theorem C5_enable_pages_tolerates_non2xx_counterexample :
    (enable_pages_root ghServe "u" "r"
      { user := "u", repoExists := true,
        repoHtmlUrl := "https://github.com/u/r",
        repoApiUrl := "https://api.github.com/repos/u/r", files := [],
        headSha := "h0", pagesConfigured := true,
        pagesHtmlUrl := some "https://u.github.io/r/", fresh := 0,
        brokenPut := [], log := [] }).1 = .ok "https://u.github.io/r/" ∧
    (enable_pages_root ghServe "u" "r"
      { user := "u", repoExists := true,
        repoHtmlUrl := "https://github.com/u/r",
        repoApiUrl := "https://api.github.com/repos/u/r", files := [],
        headSha := "h0", pagesConfigured := true,
        pagesHtmlUrl := some "https://u.github.io/r/", fresh := 0,
        brokenPut := [], log := [] }).2.log =
      [(.postPages "u" "r" "main" "/", 409), (.putPages "u" "r" "main" "/", 204),
       (.getPages "u" "r", 200)] :=
  ⟨rfl, rfl⟩

/-- C5 amended: transport-level errors raise and propagate out of every
    request the three Reconciler operations make, and non-2xx responses
    raise for the repository lookup (other than the 404 that triggers
    creation), the repository creation, every file write, the head-ref
    read and the final pages-configuration read.  The exceptions — forced
    by the counterexample — are: EnablePages' create request, whose
    non-2xx response triggers the update fallback instead of raising;
    the update request, whose response status is ignored entirely; and
    CommitFiles' per-file content-SHA lookup, whose non-200 response is
    treated as "file absent" rather than raised.  The operations are
    stated against a scripted client answering successive requests with
    the entries of the script. -/
theorem C5_error_policy_amended :
    -- EnsureRepository: transport error on the lookup propagates
    (∀ (o r : String) (e : String),
      ensure_repo_exists scriptClient o r [.error e] = (.error e, [])) ∧
    -- EnsureRepository: non-2xx, non-404 lookup raises
    (∀ (o r : String) (resp : HttpResp) (rest : List (Except String HttpResp)),
      resp.status ≠ 404 → ¬(200 ≤ resp.status ∧ resp.status < 300) →
      ensure_repo_exists scriptClient o r (.ok resp :: rest) =
        (.error ("HTTPStatusError: " ++ toString resp.status), rest)) ∧
    -- EnsureRepository: transport error on the creation propagates
    (∀ (o r : String) (resp : HttpResp) (e : String)
        (rest : List (Except String HttpResp)), resp.status = 404 →
      ensure_repo_exists scriptClient o r (.ok resp :: .error e :: rest) =
        (.error e, rest)) ∧
    -- EnsureRepository: non-2xx creation response raises
    (∀ (o r : String) (resp c : HttpResp) (rest : List (Except String HttpResp)),
      resp.status = 404 → ¬(200 ≤ c.status ∧ c.status < 300) →
      ensure_repo_exists scriptClient o r (.ok resp :: .ok c :: rest) =
        (.error ("HTTPStatusError: " ++ toString c.status), rest)) ∧
    -- CommitFiles: transport error on the content-SHA lookup propagates
    (∀ (o r p msg : String) (bs : ByteStr) (e : String),
      commit_files scriptClient o r [(p, bs)] msg [.error e] = (.error e, [])) ∧
    -- CommitFiles: transport error on the file write propagates
    (∀ (o r p msg : String) (bs : ByteStr) (g : HttpResp) (e : String)
        (rest : List (Except String HttpResp)),
      commit_files scriptClient o r [(p, bs)] msg (.ok g :: .error e :: rest) =
        (.error e, rest)) ∧
    -- CommitFiles: non-2xx file-write response raises
    (∀ (o r p msg : String) (bs : ByteStr) (g w : HttpResp)
        (rest : List (Except String HttpResp)),
      ¬(200 ≤ w.status ∧ w.status < 300) →
      commit_files scriptClient o r [(p, bs)] msg (.ok g :: .ok w :: rest) =
        (.error ("HTTPStatusError: " ++ toString w.status), rest)) ∧
    -- CommitFiles: non-2xx head-ref response raises
    (∀ (o r msg : String) (ref : HttpResp) (rest : List (Except String HttpResp)),
      ¬(200 ≤ ref.status ∧ ref.status < 300) →
      commit_files scriptClient o r [] msg (.ok ref :: rest) =
        (.error ("HTTPStatusError: " ++ toString ref.status), rest)) ∧
    -- CommitFiles: a non-200 content-SHA lookup is treated as absent (no raise)
    (∀ (o r p msg : String) (bs : ByteStr) (g w ref : HttpResp) (sha : String)
        (rest : List (Except String HttpResp)),
      g.status ≠ 200 → 200 ≤ w.status ∧ w.status < 300 →
      200 ≤ ref.status ∧ ref.status < 300 → bodyRefSha ref.body = .ok sha →
      commit_files scriptClient o r [(p, bs)] msg (.ok g :: .ok w :: .ok ref :: rest) =
        (.ok sha, rest)) ∧
    -- EnablePages: transport error on the create propagates
    (∀ (o r : String) (e : String),
      enable_pages_root scriptClient o r [.error e] = (.error e, [])) ∧
    -- EnablePages: transport error on the update fallback propagates
    (∀ (o r : String) (po : HttpResp) (e : String)
        (rest : List (Except String HttpResp)),
      ¬(po.status = 201 ∨ po.status = 204) →
      enable_pages_root scriptClient o r (.ok po :: .error e :: rest) =
        (.error e, rest)) ∧
    -- EnablePages: transport error on the final read propagates
    (∀ (o r : String) (po : HttpResp) (e : String)
        (rest : List (Except String HttpResp)),
      po.status = 201 ∨ po.status = 204 →
      enable_pages_root scriptClient o r (.ok po :: .error e :: rest) =
        (.error e, rest)) ∧
    -- EnablePages: non-2xx final read raises
    (∀ (o r : String) (po g : HttpResp) (rest : List (Except String HttpResp)),
      po.status = 201 ∨ po.status = 204 →
      ¬(200 ≤ g.status ∧ g.status < 300) →
      enable_pages_root scriptClient o r (.ok po :: .ok g :: rest) =
        (.error ("HTTPStatusError: " ++ toString g.status), rest)) ∧
    -- EnablePages: non-2xx create and update responses do NOT raise
    (∀ (o r : String) (po pu g : HttpResp) (rest : List (Except String HttpResp)),
      ¬(po.status = 201 ∨ po.status = 204) →
      200 ≤ g.status ∧ g.status < 300 →
      enable_pages_root scriptClient o r (.ok po :: .ok pu :: .ok g :: rest) =
        (.ok (pagesUrlOf g.body o r), rest)) := by
  refine ⟨?_, ?_, ?_, ?_, ?_, ?_, ?_, ?_, ?_, ?_, ?_, ?_, ?_, ?_⟩
  · intro o r e
    simp only [ensure_repo_exists, scriptClient]
  · intro o r resp rest h404 h2
    simp only [ensure_repo_exists, scriptClient, if_neg h404,
      raise_for_status, if_neg h2]
  · intro o r resp e rest h404
    simp only [ensure_repo_exists, scriptClient, h404, if_pos rfl, if_true]
  · intro o r resp c rest h404 h2
    simp only [ensure_repo_exists, scriptClient, h404, if_pos rfl, if_true,
      raise_for_status, if_neg h2]
  · intro o r p msg bs e
    simp only [commit_files, commitLoop, _get_sha_if_exists, scriptClient]
  · intro o r p msg bs g e rest
    simp only [commit_files, commitLoop, _get_sha_if_exists, scriptClient]
  · intro o r p msg bs g w rest h2
    simp only [commit_files, commitLoop, _get_sha_if_exists, scriptClient,
      raise_for_status, if_neg h2]
  · intro o r msg ref rest h2
    simp only [commit_files, commitLoop, scriptClient, raise_for_status,
      if_neg h2]
  · intro o r p msg bs g w ref sha rest hg hw href hsha
    simp only [commit_files, commitLoop, _get_sha_if_exists, scriptClient,
      if_neg hg, raise_for_status, if_pos hw, if_pos href, hsha]
  · intro o r e
    simp only [enable_pages_root, scriptClient]
  · intro o r po e rest hpo
    simp only [enable_pages_root, scriptClient, if_neg hpo]
  · intro o r po e rest hpo
    simp only [enable_pages_root, scriptClient, if_pos hpo]
  · intro o r po g rest hpo h2
    simp only [enable_pages_root, scriptClient, if_pos hpo,
      raise_for_status, if_neg h2]
  · intro o r po pu g rest hpo h2
    simp only [enable_pages_root, scriptClient, if_neg hpo,
      raise_for_status, if_pos h2]

/-- Witness for C5 (amended): each hypothesis-bearing part instantiated
    at concrete statuses — a 401 lookup raises, a 422 creation raises, a
    500 file write raises, a 500 head-ref read raises, a 500 content-SHA
    lookup is tolerated, a 500 final pages read raises, and a 409 pages
    create followed by a 404 update is tolerated. -/
theorem C5_error_policy_amended_witness :
    (ensure_repo_exists scriptClient "u" "r"
        [.ok { status := 401, body := [] }] =
      (.error ("HTTPStatusError: " ++ toString 401), [])) ∧
    (ensure_repo_exists scriptClient "u" "r"
        [.ok { status := 404, body := [] }, .ok { status := 422, body := [] }] =
      (.error ("HTTPStatusError: " ++ toString 422), [])) ∧
    (commit_files scriptClient "u" "r" [("a.txt", [1])] "m"
        [.ok { status := 404, body := [] }, .ok { status := 500, body := [] }] =
      (.error ("HTTPStatusError: " ++ toString 500), [])) ∧
    (commit_files scriptClient "u" "r" [] "m"
        [.ok { status := 500, body := [] }] =
      (.error ("HTTPStatusError: " ++ toString 500), [])) ∧
    (commit_files scriptClient "u" "r" [("a.txt", [1])] "m"
        [.ok { status := 500, body := [] },
         .ok { status := 201, body := [] },
         .ok { status := 200, body := [("object", .o [("sha", "h1")])] }] =
      (.ok "h1", [])) ∧
    (enable_pages_root scriptClient "u" "r"
        [.ok { status := 201, body := [] }, .ok { status := 500, body := [] }] =
      (.error ("HTTPStatusError: " ++ toString 500), [])) ∧
    (enable_pages_root scriptClient "u" "r"
        [.ok { status := 409, body := [] }, .ok { status := 404, body := [] },
         .ok { status := 200, body := [("html_url", .s "https://u.github.io/r/")] }] =
      (.ok (pagesUrlOf [("html_url", .s "https://u.github.io/r/")] "u" "r"), [])) := by
  refine ⟨?_, ?_, ?_, ?_, ?_, ?_, ?_⟩
  · exact C5_error_policy_amended.2.1 "u" "r" { status := 401, body := [] } []
      (by decide) (by decide)
  · exact C5_error_policy_amended.2.2.2.1 "u" "r" { status := 404, body := [] }
      { status := 422, body := [] } [] rfl (by decide)
  · exact C5_error_policy_amended.2.2.2.2.2.2.1 "u" "r" "a.txt" "m" [1]
      { status := 404, body := [] } { status := 500, body := [] } []
      (by decide)
  · exact C5_error_policy_amended.2.2.2.2.2.2.2.1 "u" "r" "m"
      { status := 500, body := [] } [] (by decide)
  · exact C5_error_policy_amended.2.2.2.2.2.2.2.2.1 "u" "r" "a.txt" "m" [1]
      { status := 500, body := [] } { status := 201, body := [] }
      { status := 200, body := [("object", .o [("sha", "h1")])] } "h1" []
      (by decide) (by decide) (by decide) rfl
  · exact C5_error_policy_amended.2.2.2.2.2.2.2.2.2.2.2.2.1 "u" "r"
      { status := 201, body := [] } { status := 500, body := [] } []
      (Or.inl rfl) (by decide)
  · exact C5_error_policy_amended.2.2.2.2.2.2.2.2.2.2.2.2.2 "u" "r"
      { status := 409, body := [] } { status := 404, body := [] }
      { status := 200, body := [("html_url", .s "https://u.github.io/r/")] } []
      (by decide) (by decide)

/-- C1: for every authenticated request whose deploy sequence succeeds,
    the response body is exactly the request's `email`, `task`, `round`,
    `nonce` echoed unchanged together with `repo_url`, `commit_sha` and
    `pages_url` from the deployment; exactly one callback is posted to
    the request's `evaluation_url` with the notify body; and the
    response object equals the notify body minus its `latency_ms` field
    (equality of JSON objects, i.e. key-wise lookup equality). -/
theorem dlookup_append_swap (l : List (String × JVal)) (a b : String)
    (x y : JVal) (k : String) (hab : a ≠ b) :
    dlookup (l ++ [(a, x), (b, y)]) k = dlookup (l ++ [(b, y), (a, x)]) k := by
  induction l with
  | nil =>
    simp only [List.nil_append]
    by_cases ha : a = k
    · subst ha
      have hba : ¬ b = a := fun h => hab h.symm
      simp [dlookup, hba]
    · by_cases hb : b = k
      · subst hb
        simp [dlookup, ha]
      · simp [dlookup, ha, hb]
  | cons e rest ih =>
    simp only [List.cons_append, dlookup]
    by_cases he : e.1 = k
    · simp [he]
    · simp [he, ih]

theorem C1_response_echo_and_notify_payload (cfg : Config) (p : SubmitPayload)
    (elapsedMs : Int) (st : PipeState) (ru pu cs : String)
    (hemail : p.email = cfg.studentEmail)
    (hsecret : p.secret = cfg.studentSecret)
    (hdeploy : (_deploy_once cfg p st).1 = .ok (ru, pu, cs)) :
    (submit cfg p elapsedMs st).response =
      .ok [("email", .s p.email), ("task", .s p.task), ("round", .i p.round),
           ("nonce", .s p.nonce), ("repo_url", .s ru),
           ("commit_sha", .s cs), ("pages_url", .s pu)] ∧
    (submit cfg p elapsedMs st).notified =
      [(p.evaluation_url, notifyBody p ru pu cs elapsedMs)] ∧
    (∀ k, dlookup (responseBody p ru pu cs) k =
      dlookup (eraseKey (notifyBody p ru pu cs elapsedMs) "latency_ms") k) := by
  have hauth : ¬(p.email ≠ cfg.studentEmail ∨ p.secret ≠ cfg.studentSecret) := by
    simp [hemail, hsecret]
  obtain ⟨y, hy⟩ : ∃ y, _deploy_once cfg p st = (.ok (ru, pu, cs), y) :=
    ⟨(_deploy_once cfg p st).2, by rw [← hdeploy]⟩
  refine ⟨?_, ?_, ?_⟩
  · simp only [submit, _auth, if_neg hauth, hy, responseBody]
  · simp only [submit, _auth, if_neg hauth, hy]
  · intro k
    have herase : eraseKey (notifyBody p ru pu cs elapsedMs) "latency_ms" =
        [("email", .s p.email), ("task", .s p.task), ("round", .i p.round),
         ("nonce", .s p.nonce), ("repo_url", .s ru), ("pages_url", .s pu),
         ("commit_sha", .s cs)] := by
      simp [eraseKey, notifyBody]
    rw [herase]
    exact dlookup_append_swap
      [("email", .s p.email), ("task", .s p.task), ("round", .i p.round),
       ("nonce", .s p.nonce), ("repo_url", .s ru)]
      "commit_sha" "pages_url" (.s cs) (.s pu) k (by decide)

/-- Witness for C1: the concrete round-1 submission against a fresh host
    with no generation backend; the deploy produces
    `https://github.com/u/tds-demo`, `https://u.github.io/tds-demo/` and
    head commit `commit5`, and the response/notify properties hold. -/
theorem C1_response_echo_and_notify_payload_witness :
    (("a@b.com" : String) = "a@b.com") ∧
    (("s" : String) = "s") ∧
    ((_deploy_once
      { studentEmail := "a@b.com", studentSecret := "s", ghUsername := "u",
        ghRepoPrefix := "tds-" }
      { email := "a@b.com", secret := "s", task := "demo", round := 1,
        nonce := "n1", brief := "Sum sales", checks := ["#total exists"],
        evaluation_url := "http://eval.test/cb", attachments := [] }
      { gh := { user := "u", repoExists := false, repoHtmlUrl := "",
                repoApiUrl := "", files := [], headSha := "",
                pagesConfigured := false, pagesHtmlUrl := none, fresh := 0,
                brokenPut := [], log := [] }, llm := none }).1 =
      .ok ("https://github.com/u/tds-demo", "https://u.github.io/tds-demo/",
           "commit5")) ∧
    ((submit
      { studentEmail := "a@b.com", studentSecret := "s", ghUsername := "u",
        ghRepoPrefix := "tds-" }
      { email := "a@b.com", secret := "s", task := "demo", round := 1,
        nonce := "n1", brief := "Sum sales", checks := ["#total exists"],
        evaluation_url := "http://eval.test/cb", attachments := [] }
      42
      { gh := { user := "u", repoExists := false, repoHtmlUrl := "",
                repoApiUrl := "", files := [], headSha := "",
                pagesConfigured := false, pagesHtmlUrl := none, fresh := 0,
                brokenPut := [], log := [] }, llm := none }).response =
      .ok [("email", .s "a@b.com"), ("task", .s "demo"), ("round", .i 1),
           ("nonce", .s "n1"), ("repo_url", .s "https://github.com/u/tds-demo"),
           ("commit_sha", .s "commit5"),
           ("pages_url", .s "https://u.github.io/tds-demo/")]) := by
  refine ⟨rfl, rfl, rfl, ?_⟩
  have h := C1_response_echo_and_notify_payload
    { studentEmail := "a@b.com", studentSecret := "s", ghUsername := "u",
      ghRepoPrefix := "tds-" }
    { email := "a@b.com", secret := "s", task := "demo", round := 1,
      nonce := "n1", brief := "Sum sales", checks := ["#total exists"],
      evaluation_url := "http://eval.test/cb", attachments := [] }
    42
    { gh := { user := "u", repoExists := false, repoHtmlUrl := "",
              repoApiUrl := "", files := [], headSha := "",
              pagesConfigured := false, pagesHtmlUrl := none, fresh := 0,
              brokenPut := [], log := [] }, llm := none }
    "https://github.com/u/tds-demo" "https://u.github.io/tds-demo/" "commit5"
    rfl rfl rfl
  exact h.1

theorem dlookup_mem {β : Type} (l : List (String × β)) (k : String) (v : β)
    (h : dlookup l k = some v) : (k, v) ∈ l := by
  induction l with
  | nil => cases h
  | cons e rest ih =>
    by_cases he : e.1 = k
    · simp only [dlookup, if_pos he] at h
      cases h
      subst he
      exact List.mem_cons_self _ _
    · simp only [dlookup, if_neg he] at h
      exact List.mem_cons_of_mem _ (ih h)

theorem mkSha_ne_empty (n : Nat) : mkSha n ≠ "" := by
  intro h
  have h2 := congrArg String.length h
  simp [mkSha, String.length_append] at h2
  exact absurd h2.1 (by decide)

theorem shaMap_dictInsert (l : List (String × String × String)) (p sh c : String) :
    (dictInsert l p (sh, c)).map (fun e => (e.1, e.2.1)) =
      dictInsert (l.map (fun e => (e.1, e.2.1))) p sh := by
  induction l with
  | nil => rfl
  | cons e rest ih =>
    by_cases he : e.1 = p
    · simp [dictInsert, he]
    · simp [dictInsert, he, ih]

theorem dlookup_map_fst (l : List (String × String × String)) (p : String) :
    dlookup (l.map (fun e => (e.1, e.2.1))) p = (dlookup l p).map Prod.fst := by
  induction l with
  | nil => rfl
  | cons e rest ih =>
    by_cases he : e.1 = p
    · simp [dlookup, he]
    · simp [dlookup, he, ih]

/-- One successful run of the per-file loop of `commit_files` on the
    semantic host: with the repository present, well-formed SHAs and no
    fault-injected path among the file set, the loop succeeds, appends to
    the log exactly the lookup/write choreography described by
    `commitBody`, updates exactly the written paths (leaving every other
    path untouched), and preserves the rest of the host state. -/
theorem commitLoop_spec (o r msg : String) (fs : List (String × ByteStr)) :
    ∀ s : GhState,
    s.repoExists = true → ShasOk s →
    (∀ q ∈ fs.map Prod.fst, q ∉ s.brokenPut) →
    (fs.map Prod.fst).Nodup →
    ∃ s', commitLoop ghServe o r msg fs s = (.ok (), s') ∧
      s'.repoExists = true ∧ ShasOk s' ∧
      s'.brokenPut = s.brokenPut ∧ s'.user = s.user ∧
      s'.pagesConfigured = s.pagesConfigured ∧
      s'.pagesHtmlUrl = s.pagesHtmlUrl ∧
      s'.log = s.log ++ commitBody o r msg fs (shaMapOf s) s.fresh ∧
      (∀ q w, (q, w) ∈ fs → ∃ sh, ghFile s' q = some (sh, b64encode w)) ∧
      (∀ q, q ∉ fs.map Prod.fst → ghFile s' q = ghFile s q) := by
  induction fs with
  | nil =>
    intro s h1 h2 _ _
    exact ⟨s, rfl, h1, h2, rfl, rfl, rfl, rfl, by simp [commitBody],
      fun q w hw => absurd hw (List.not_mem_nil _), fun q _ => rfl⟩
  | cons e rest ih =>
    obtain ⟨p, bs⟩ := e
    intro s h1 h2 h3 h4
    have hpb : p ∉ s.brokenPut := h3 p (by simp)
    have h3r : ∀ q ∈ rest.map Prod.fst, q ∉ s.brokenPut :=
      fun q hq => h3 q (by simp [hq])
    simp only [List.map_cons, List.nodup_cons] at h4
    obtain ⟨hpnotin, h4r⟩ := h4
    cases hf : ghFile s p with
    | some val =>
      obtain ⟨sha, c⟩ := val
      have hshane : sha ≠ "" := h2 (p, sha, c) (dlookup_mem _ _ _ hf)
      have hf' : dlookup s.files p = some (sha, c) := hf
      have hstep : commitLoop ghServe o r msg ((p, bs) :: rest) s =
          commitLoop ghServe o r msg rest
            { s with files := dictInsert s.files p (mkSha s.fresh, b64encode bs),
                     headSha := mkCommit s.fresh, fresh := s.fresh + 1,
                     log := s.log ++ [(.getContents o r p, 200),
                       (.putContents o r p msg (b64encode bs) "main" (some sha), 200)] } := by
        simp [commitLoop, _get_sha_if_exists, ghServe, ghServeCore, h1, hf',
          hpb, shaArgOf, hshane, raise_for_status, bodyGetStr, dlookup, ghFile]
      obtain ⟨s', hrun, hre, hsh, hbr, hus, hpc, hpu, hlog, hwrites, hother⟩ :=
        ih { s with files := dictInsert s.files p (mkSha s.fresh, b64encode bs),
                    headSha := mkCommit s.fresh, fresh := s.fresh + 1,
                    log := s.log ++ [(.getContents o r p, 200),
                      (.putContents o r p msg (b64encode bs) "main" (some sha), 200)] }
          h1
          (by
            intro x hx
            rcases mem_dictInsert _ _ _ x hx with hx' | hx'
            · rw [hx']
              exact mkSha_ne_empty s.fresh
            · exact h2 x hx')
          h3r h4r
      refine ⟨s', hstep ▸ hrun, hre, hsh, hbr, hus, hpc, hpu, ?_, ?_, ?_⟩
      · rw [hlog]
        have hsm : shaMapOf
            { s with files := dictInsert s.files p (mkSha s.fresh, b64encode bs),
                     headSha := mkCommit s.fresh, fresh := s.fresh + 1,
                     log := s.log ++ [(.getContents o r p, 200),
                       (.putContents o r p msg (b64encode bs) "main" (some sha), 200)] } =
            dictInsert (shaMapOf s) p (mkSha s.fresh) := by
          simp only [shaMapOf]
          exact shaMap_dictInsert s.files p (mkSha s.fresh) (b64encode bs)
        rw [hsm]
        have hlk : dlookup (shaMapOf s) p = some sha := by
          rw [shaMapOf, dlookup_map_fst]
          rw [show dlookup s.files p = some (sha, c) from hf]
          rfl
        simp [commitBody, hlk, List.append_assoc]
      · intro q w hqw
        rcases List.mem_cons.mp hqw with hqw | hqw
        · rw [Prod.mk.injEq] at hqw
          obtain ⟨hq, hw⟩ := hqw
          subst hq; subst hw
          rw [hother q hpnotin]
          exact ⟨mkSha s.fresh, by simp [ghFile, dlookup_dictInsert_self]⟩
        · exact hwrites q w hqw
      · intro q hq
        simp only [List.map_cons, List.mem_cons, not_or] at hq
        rw [hother q hq.2]
        simp only [ghFile]
        exact dlookup_dictInsert_ne _ _ _ _ (fun hh => hq.1 hh.symm)
    | none =>
      have hf' : dlookup s.files p = none := hf
      have hstep : commitLoop ghServe o r msg ((p, bs) :: rest) s =
          commitLoop ghServe o r msg rest
            { s with files := dictInsert s.files p (mkSha s.fresh, b64encode bs),
                     headSha := mkCommit s.fresh, fresh := s.fresh + 1,
                     log := s.log ++ [(.getContents o r p, 404),
                       (.putContents o r p msg (b64encode bs) "main" none, 201)] } := by
        simp [commitLoop, _get_sha_if_exists, ghServe, ghServeCore, h1, hf',
          hpb, shaArgOf, raise_for_status, bodyGetStr, dlookup, ghFile]
      obtain ⟨s', hrun, hre, hsh, hbr, hus, hpc, hpu, hlog, hwrites, hother⟩ :=
        ih { s with files := dictInsert s.files p (mkSha s.fresh, b64encode bs),
                    headSha := mkCommit s.fresh, fresh := s.fresh + 1,
                    log := s.log ++ [(.getContents o r p, 404),
                      (.putContents o r p msg (b64encode bs) "main" none, 201)] }
          h1
          (by
            intro x hx
            rcases mem_dictInsert _ _ _ x hx with hx' | hx'
            · rw [hx']
              exact mkSha_ne_empty s.fresh
            · exact h2 x hx')
          h3r h4r
      refine ⟨s', hstep ▸ hrun, hre, hsh, hbr, hus, hpc, hpu, ?_, ?_, ?_⟩
      · rw [hlog]
        have hsm : shaMapOf
            { s with files := dictInsert s.files p (mkSha s.fresh, b64encode bs),
                     headSha := mkCommit s.fresh, fresh := s.fresh + 1,
                     log := s.log ++ [(.getContents o r p, 404),
                       (.putContents o r p msg (b64encode bs) "main" none, 201)] } =
            dictInsert (shaMapOf s) p (mkSha s.fresh) := by
          simp only [shaMapOf]
          exact shaMap_dictInsert s.files p (mkSha s.fresh) (b64encode bs)
        rw [hsm]
        have hlk : dlookup (shaMapOf s) p = none := by
          rw [shaMapOf, dlookup_map_fst]
          rw [show dlookup s.files p = none from hf]
          rfl
        simp [commitBody, hlk, List.append_assoc]
      · intro q w hqw
        rcases List.mem_cons.mp hqw with hqw | hqw
        · rw [Prod.mk.injEq] at hqw
          obtain ⟨hq, hw⟩ := hqw
          subst hq; subst hw
          rw [hother q hpnotin]
          exact ⟨mkSha s.fresh, by simp [ghFile, dlookup_dictInsert_self]⟩
        · exact hwrites q w hqw
      · intro q hq
        simp only [List.map_cons, List.mem_cons, not_or] at hq
        rw [hother q hq.2]
        simp only [ghFile]
        exact dlookup_dictInsert_ne _ _ _ _ (fun hh => hq.1 hh.symm)

theorem commitLoop_append {σ : Type} (client : Client σ) (o r msg : String)
    (a b : List (String × ByteStr)) : ∀ s : σ,
    commitLoop client o r msg (a ++ b) s =
      (match commitLoop client o r msg a s with
       | (.ok _, s1) => commitLoop client o r msg b s1
       | (.error e, s1) => (.error e, s1)) := by
  induction a with
  | nil => intro s; rfl
  | cons e a ih =>
    obtain ⟨p, bs⟩ := e
    intro s
    simp only [List.cons_append, commitLoop]
    rcases hg : _get_sha_if_exists client o r p s with ⟨res, s1⟩
    cases res with
    | error err => rfl
    | ok sha =>
      dsimp only
      rcases hw : client (.putContents o r p msg (b64encode bs) "main"
          (shaArgOf sha)) s1 with ⟨wres, s2⟩
      cases wres with
      | error err => rfl
      | ok w =>
        dsimp only
        cases hrs : raise_for_status w with
        | error err => rfl
        | ok w' => exact ih s2

/-- C3: on the semantic host (repository present, well-formed SHAs, no
    injected faults, distinct paths), `commit_files` succeeds; its
    request log is exactly `commitBody` — for every path, a content
    lookup followed by a write whose payload carries the current content
    SHA precisely when the file already exists (an update) and no SHA
    otherwise (a create) — followed by one read of `heads/main`; the
    returned value is the head SHA of the default branch in the final
    host state; and a second `commit_files` of the same file set from the
    resulting state also succeeds (the second commit of a path is an
    update, not a duplicate-create rejection). -/
theorem C3_commit_files_lookup_then_write (o r msg : String)
    (fs : List (String × ByteStr)) (s : GhState)
    (h1 : s.repoExists = true) (h2 : ShasOk s) (h3 : s.brokenPut = [])
    (h4 : (fs.map Prod.fst).Nodup) :
    ∃ sha s', commit_files ghServe o r fs msg s = (.ok sha, s') ∧
      sha = s'.headSha ∧
      s'.log = s.log ++ commitBody o r msg fs (shaMapOf s) s.fresh ++
        [(.getRef o r "heads/main", 200)] ∧
      (commit_files ghServe o r fs msg s').1.isOk = true := by
  have hnb : ∀ q ∈ fs.map Prod.fst, q ∉ s.brokenPut := by
    intro q _
    rw [h3]
    exact List.not_mem_nil q
  obtain ⟨s1, hrun, hre, hsh, hbr, _, _, _, hlog, _, _⟩ :=
    commitLoop_spec o r msg fs s h1 h2 hnb h4
  have hcf : commit_files ghServe o r fs msg s =
      (.ok s1.headSha,
       { s1 with log := s1.log ++ [(.getRef o r "heads/main", 200)] }) := by
    simp [commit_files, hrun, ghServe, ghServeCore, hre, raise_for_status,
      bodyRefSha, dlookup]
  refine ⟨s1.headSha, _, hcf, rfl, ?_, ?_⟩
  · show s1.log ++ [(.getRef o r "heads/main", 200)] = _
    rw [hlog, List.append_assoc]
  · have hnb2 : ∀ q ∈ fs.map Prod.fst,
        q ∉ ({ s1 with log := s1.log ++ [(.getRef o r "heads/main", 200)] } : GhState).brokenPut := by
      intro q _
      show q ∉ s1.brokenPut
      rw [hbr, h3]
      exact List.not_mem_nil q
    obtain ⟨t1, hrun2, hre2, _, _, _, _, _, _, _, _⟩ :=
      commitLoop_spec o r msg fs
        { s1 with log := s1.log ++ [(.getRef o r "heads/main", 200)] }
        hre hsh hnb2 h4
    simp [commit_files, hrun2, ghServe, ghServeCore, hre2, raise_for_status,
      bodyRefSha, dlookup, Except.isOk, Except.toBool]

/-- Witness for C3: committing `index.html` (already on the host with
    SHA `sha9`) and `notes.txt` (absent) succeeds, logs an update with
    `sha = some "sha9"` and a create without a SHA, returns the final
    head SHA, and a second identical commit also succeeds. -/
theorem C3_commit_files_lookup_then_write_witness :
    (wGh3.repoExists = true) ∧ ShasOk wGh3 ∧ (wGh3.brokenPut = []) ∧
    ((([("index.html", [104, 105]), ("notes.txt", [1])] :
        List (String × ByteStr)).map Prod.fst).Nodup) ∧
    ∃ sha s', commit_files ghServe "u" "r"
        [("index.html", [104, 105]), ("notes.txt", [1])] "initial: t" wGh3 =
        (.ok sha, s') ∧
      sha = s'.headSha ∧
      s'.log = wGh3.log ++ commitBody "u" "r" "initial: t"
          [("index.html", [104, 105]), ("notes.txt", [1])]
          (shaMapOf wGh3) wGh3.fresh ++
        [(.getRef "u" "r" "heads/main", 200)] ∧
      (commit_files ghServe "u" "r"
        [("index.html", [104, 105]), ("notes.txt", [1])] "initial: t" s').1.isOk = true :=
  ⟨rfl, by intro e he; fin_cases he; decide, rfl, by decide,
   C3_commit_files_lookup_then_write "u" "r" "initial: t"
     [("index.html", [104, 105]), ("notes.txt", [1])] wGh3
     rfl (by intro e he; fin_cases he; decide) rfl (by decide)⟩

/-- C8: writes happen one at a time in the iteration order of the
    mapping, and a failing write aborts the rest without rollback.  With
    the file set `fs₁ ++ (p, v) :: fs₂` and a server-side fault injected
    for path `p` (its write answers 500), `commit_files` fails with the
    propagated `HTTPStatusError`; the request log shows exactly the
    successful per-file choreography for the strict prefix `fs₁`, then
    the lookup and the failed write for `p`, and nothing afterwards (in
    particular no request for any path of `fs₂` and no head-ref read);
    every path of `fs₁` remains written on the host with its new content
    (no rollback), and every path of `fs₂` is untouched. -/
theorem C8_failed_write_keeps_prefix (o r msg : String)
    (fs₁ : List (String × ByteStr)) (p : String) (v : ByteStr)
    (fs₂ : List (String × ByteStr)) (s : GhState)
    (h1 : s.repoExists = true) (h2 : ShasOk s) (h3 : s.brokenPut = [p])
    (h4 : ((fs₁ ++ (p, v) :: fs₂).map Prod.fst).Nodup) :
    ∃ s', commit_files ghServe o r (fs₁ ++ (p, v) :: fs₂) msg s =
        (.error ("HTTPStatusError: " ++ toString 500), s') ∧
      s'.log = s.log ++ commitBody o r msg fs₁ (shaMapOf s) s.fresh ++
        [(.getContents o r p,
          if (dlookup (shaMapOf s) p).isSome then 200 else 404),
         (.putContents o r p msg (b64encode v) "main"
           (shaArgOf (dlookup (shaMapOf s) p)), 500)] ∧
      (∀ q w, (q, w) ∈ fs₁ → ∃ sh, ghFile s' q = some (sh, b64encode w)) ∧
      (∀ q, q ∈ fs₂.map Prod.fst → ghFile s' q = ghFile s q) := by
  rw [show (fs₁ ++ (p, v) :: fs₂).map Prod.fst =
      fs₁.map Prod.fst ++ p :: fs₂.map Prod.fst by simp] at h4
  rw [List.nodup_append] at h4
  obtain ⟨hn1, _, hdisj⟩ := h4
  have hp1 : p ∉ fs₁.map Prod.fst :=
    fun hp => hdisj hp (List.mem_cons_self _ _)
  have hnb1 : ∀ q ∈ fs₁.map Prod.fst, q ∉ s.brokenPut := by
    intro q hq
    rw [h3]
    simp only [List.mem_singleton]
    intro he
    subst he
    exact hdisj hq (List.mem_cons_self _ _)
  obtain ⟨s1, hrun, hre, hsh, hbr, _, _, _, hlog, hwrites, hother⟩ :=
    commitLoop_spec o r msg fs₁ s h1 h2 hnb1 hn1
  have hfp1 : ghFile s1 p = ghFile s p := hother p hp1
  have hpbrk : p ∈ s1.brokenPut := by
    rw [hbr, h3]
    exact List.mem_cons_self _ _
  have hnotf1 : ∀ q, q ∈ fs₂.map Prod.fst → q ∉ fs₁.map Prod.fst :=
    fun q hq hq1 => hdisj hq1 (List.mem_cons_of_mem _ hq)
  cases hfp : ghFile s p with
  | some val =>
    obtain ⟨sha, c⟩ := val
    have hshane : sha ≠ "" := h2 (p, sha, c) (dlookup_mem _ _ _ hfp)
    have hf1 : dlookup s1.files p = some (sha, c) := hfp1.trans hfp
    have hstep : commitLoop ghServe o r msg ((p, v) :: fs₂) s1 =
        (.error ("HTTPStatusError: " ++ toString 500),
         { s1 with log := s1.log ++ [(.getContents o r p, 200),
             (.putContents o r p msg (b64encode v) "main" (some sha), 500)] }) := by
      simp [commitLoop, _get_sha_if_exists, ghServe, ghServeCore, hre, hf1,
        hpbrk, shaArgOf, hshane, raise_for_status, bodyGetStr, dlookup, ghFile]
    have hall : commitLoop ghServe o r msg (fs₁ ++ (p, v) :: fs₂) s =
        (.error ("HTTPStatusError: " ++ toString 500),
         { s1 with log := s1.log ++ [(.getContents o r p, 200),
             (.putContents o r p msg (b64encode v) "main" (some sha), 500)] }) := by
      rw [commitLoop_append ghServe o r msg fs₁ ((p, v) :: fs₂) s, hrun]
      exact hstep
    have hlk : dlookup (shaMapOf s) p = some sha := by
      rw [shaMapOf, dlookup_map_fst]
      rw [show dlookup s.files p = some (sha, c) from hfp]
      rfl
    refine ⟨{ s1 with log := s1.log ++ [(.getContents o r p, 200),
        (.putContents o r p msg (b64encode v) "main" (some sha), 500)] },
      ?_, ?_, ?_, ?_⟩
    · simp [commit_files, hall]
    · show s1.log ++ _ = _
      rw [hlog, hlk, List.append_assoc]
      simp [shaArgOf, hshane]
    · intro q w hq
      exact hwrites q w hq
    · intro q hq
      exact hother q (hnotf1 q hq)
  | none =>
    have hf1 : dlookup s1.files p = none := hfp1.trans hfp
    have hstep : commitLoop ghServe o r msg ((p, v) :: fs₂) s1 =
        (.error ("HTTPStatusError: " ++ toString 500),
         { s1 with log := s1.log ++ [(.getContents o r p, 404),
             (.putContents o r p msg (b64encode v) "main" none, 500)] }) := by
      simp [commitLoop, _get_sha_if_exists, ghServe, ghServeCore, hre, hf1,
        hpbrk, shaArgOf, raise_for_status, bodyGetStr, dlookup, ghFile]
    have hall : commitLoop ghServe o r msg (fs₁ ++ (p, v) :: fs₂) s =
        (.error ("HTTPStatusError: " ++ toString 500),
         { s1 with log := s1.log ++ [(.getContents o r p, 404),
             (.putContents o r p msg (b64encode v) "main" none, 500)] }) := by
      rw [commitLoop_append ghServe o r msg fs₁ ((p, v) :: fs₂) s, hrun]
      exact hstep
    have hlk : dlookup (shaMapOf s) p = none := by
      rw [shaMapOf, dlookup_map_fst]
      rw [show dlookup s.files p = none from hfp]
      rfl
    refine ⟨{ s1 with log := s1.log ++ [(.getContents o r p, 404),
        (.putContents o r p msg (b64encode v) "main" none, 500)] },
      ?_, ?_, ?_, ?_⟩
    · simp [commit_files, hall]
    · show s1.log ++ _ = _
      rw [hlog, hlk, List.append_assoc]
      simp [shaArgOf]
    · intro q w hq
      exact hwrites q w hq
    · intro q hq
      exact hother q (hnotf1 q hq)

/-- Witness for C8: with `script.js` fault-injected, committing
    `[index.html, style.css, script.js, README.md]` fails at `script.js`,
    leaves exactly `index.html` and `style.css` written (their new
    contents on the host), never touches `README.md`, and the log stops
    right after the failed write. -/
theorem C8_failed_write_keeps_prefix_witness :
    (wGh8.repoExists = true) ∧ ShasOk wGh8 ∧ (wGh8.brokenPut = ["script.js"]) ∧
    ((([("index.html", [1]), ("style.css", [2])] ++
        ("script.js", ([3] : ByteStr)) :: [("README.md", [4])]).map Prod.fst).Nodup) ∧
    ∃ s', commit_files ghServe "u" "r"
        ([("index.html", [1]), ("style.css", [2])] ++
          ("script.js", ([3] : ByteStr)) :: [("README.md", [4])]) "m" wGh8 =
        (.error ("HTTPStatusError: " ++ toString 500), s') ∧
      s'.log = wGh8.log ++ commitBody "u" "r" "m"
          [("index.html", [1]), ("style.css", [2])] (shaMapOf wGh8) wGh8.fresh ++
        [(.getContents "u" "r" "script.js",
          if (dlookup (shaMapOf wGh8) "script.js").isSome then 200 else 404),
         (.putContents "u" "r" "script.js" "m" (b64encode [3]) "main"
           (shaArgOf (dlookup (shaMapOf wGh8) "script.js")), 500)] ∧
      (∀ q w, (q, w) ∈ [("index.html", ([1] : ByteStr)), ("style.css", [2])] →
        ∃ sh, ghFile s' q = some (sh, b64encode w)) ∧
      (∀ q, q ∈ ([("README.md", ([4] : ByteStr))].map Prod.fst) →
        ghFile s' q = ghFile wGh8 q) :=
  ⟨rfl, by intro e he; fin_cases he; decide, rfl, by decide,
   C8_failed_write_keeps_prefix "u" "r" "m"
     [("index.html", [1]), ("style.css", [2])] "script.js" [3]
     [("README.md", [4])] wGh8
     rfl (by intro e he; fin_cases he; decide) rfl (by decide)⟩

theorem splitNl_ne_nil (cs : List Char) : splitNl cs ≠ [] := by
  cases cs with
  | nil => simp [splitNl]
  | cons c rest =>
    simp only [splitNl]
    split <;> simp

theorem splitNl_append (a b : List Char) :
    splitNl (a ++ '\n' :: b) = splitNl a ++ splitNl b := by
  induction a with
  | nil => simp [splitNl]
  | cons c a ih =>
    by_cases hc : c = '\n'
    · subst hc
      simp [splitNl, ih]
    · obtain ⟨h0, t0, hsa⟩ := List.exists_cons_of_ne_nil (splitNl_ne_nil a)
      simp [splitNl, hc, ih, hsa]

theorem splitNl_no_newline (d : List Char) (hd : '\n' ∉ d) : splitNl d = [d] := by
  induction d with
  | nil => rfl
  | cons c d ih =>
    simp only [List.mem_cons, not_or] at hd
    have hcne : ¬ c = '\n' := fun h => hd.1 h.symm
    have := ih hd.2
    simp [splitNl, hcne, this]

theorem joinNl_cons_ne (a : List Char) (L : List (List Char)) (h : L ≠ []) :
    joinNl (a :: L) = a ++ '\n' :: joinNl L := by
  cases L with
  | nil => exact absurd rfl h
  | cons b bs => rfl

theorem joinNl_middle : ∀ (xs : List (List Char)) (y : List Char)
    (ys : List (List Char)), ∃ A B, joinNl (xs ++ y :: ys) = A ++ y ++ B := by
  intro xs
  induction xs with
  | nil =>
    intro y ys
    cases ys with
    | nil => exact ⟨[], [], by simp [joinNl]⟩
    | cons z zs => exact ⟨[], '\n' :: joinNl (z :: zs), by simp [joinNl]⟩
  | cons x xs ih =>
    intro y ys
    obtain ⟨A, B, hAB⟩ := ih y ys
    have hne : xs ++ y :: ys ≠ [] := by
      cases xs <;> simp
    refine ⟨x ++ '\n' :: A, B, ?_⟩
    rw [List.cons_append, joinNl_cons_ne _ _ hne, hAB]
    simp [List.append_assoc]

theorem lcp_pre_left : ∀ a b : List Char, lcp a b <+: a := by
  intro a
  induction a with
  | nil => intro b; simp [lcp]
  | cons x xs ih =>
    intro b
    cases b with
    | nil => simp [lcp]
    | cons y ys =>
      by_cases hxy : x = y
      · simp only [lcp, if_pos hxy]
        obtain ⟨t, ht⟩ := ih ys
        exact ⟨t, by rw [List.cons_append, ht]⟩
      · simp [lcp, hxy]

theorem foldl_lcp_pre : ∀ (l : List (List Char)) (a : List Char),
    l.foldl lcp a <+: a := by
  intro l
  induction l with
  | nil => intro a; exact List.prefix_refl a
  | cons x xs ih =>
    intro a
    exact (ih (lcp a x)).trans (lcp_pre_left a x)

theorem dropWhile_append_of_nonws (p : Char → Bool) (L M : List Char)
    (h : ∃ x ∈ L, p x = false) :
    (L ++ M).dropWhile p = L.dropWhile p ++ M := by
  rw [List.dropWhile_append]
  have hne : (L.dropWhile p).isEmpty = false := by
    cases hdw : L.dropWhile p with
    | nil =>
      obtain ⟨x, hx, hnx⟩ := h
      have := List.dropWhile_eq_nil_iff.mp hdw x hx
      rw [this] at hnx
      cases hnx
    | cons a as => rfl
  rw [hne]
  simp

/-- `str.strip()` keeps any region of the string that has a
    non-whitespace character on both sides. -/
theorem pyStripL_keeps_mid (t L R : List Char)
    (hL : ∃ x ∈ L, isPyWs x = false) (hR : ∃ x ∈ R, isPyWs x = false) :
    ∃ A B, pyStripL (L ++ t ++ R) = A ++ t ++ B := by
  refine ⟨L.dropWhile isPyWs, (R.reverse.dropWhile isPyWs).reverse, ?_⟩
  have hstep1 : (L ++ t ++ R).dropWhile isPyWs = L.dropWhile isPyWs ++ (t ++ R) := by
    rw [List.append_assoc]
    exact dropWhile_append_of_nonws isPyWs L (t ++ R) hL
  have hR' : ∃ x ∈ R.reverse, isPyWs x = false := by
    obtain ⟨x, hx, hnx⟩ := hR
    exact ⟨x, List.mem_reverse.mpr hx, hnx⟩
  rw [pyStripL, hstep1, dropTrailWhile]
  rw [show L.dropWhile isPyWs ++ (t ++ R) =
    (L.dropWhile isPyWs ++ t) ++ R from (List.append_assoc _ _ _).symm]
  rw [List.reverse_append]
  rw [dropWhile_append_of_nonws isPyWs R.reverse _ hR']
  rw [List.reverse_append, List.reverse_reverse, List.append_assoc]

/-- `dedent(...).strip()` keeps a region of a fully literal line: if the
    input's first line (after the leading newline) is `line1` and some
    later literal line `d = dws ++ (dpre ++ t ++ dpost)` sits between two
    literal newlines — whatever text (`mid`, `tail`) surrounds them —
    then `t` survives: the dedent margin is a prefix of `line1`'s indent,
    hence of `dws`, so margin removal only shortens `dws`, and the final
    strip cannot cross the non-whitespace characters of `dpre`/`dpost`. -/
theorem dedent_strip_mid (line1 mid d tail t dws dpre dpost : List Char)
    (h1nl : '\n' ∉ line1) (hdnl : '\n' ∉ d)
    (h1c : line1.all isIndentCh = false) (hdc : d.all isIndentCh = false)
    (hd : d = dws ++ (dpre ++ t ++ dpost))
    (hiw : line1.takeWhile isIndentCh <+: dws)
    (hpre : ∃ x ∈ dpre, isPyWs x = false)
    (hpost : ∃ x ∈ dpost, isPyWs x = false) :
    ∃ A B, pyStripL (pyDedentL
        ('\n' :: (line1 ++ '\n' :: (mid ++ '\n' :: (d ++ '\n' :: tail))))) =
      A ++ t ++ B := by
  have h1ne : line1.isEmpty = false := by
    cases hl : line1 with
    | nil => rw [hl] at h1c; cases h1c
    | cons a as => rfl
  have hsplit : splitNl ('\n' :: (line1 ++ '\n' :: (mid ++ '\n' :: (d ++ '\n' :: tail)))) =
      [] :: line1 :: (splitNl mid ++ d :: splitNl tail) := by
    rw [show splitNl ('\n' :: (line1 ++ '\n' :: (mid ++ '\n' :: (d ++ '\n' :: tail)))) =
      [] :: splitNl (line1 ++ '\n' :: (mid ++ '\n' :: (d ++ '\n' :: tail))) from by
        simp [splitNl]]
    rw [splitNl_append, splitNl_no_newline _ h1nl, splitNl_append,
      splitNl_append, splitNl_no_newline _ hdnl]
    simp
  have hlines : ((splitNl ('\n' :: (line1 ++ '\n' :: (mid ++ '\n' :: (d ++ '\n' :: tail))))).map normLine) =
      [] :: line1 :: ((splitNl mid).map normLine ++ d :: (splitNl tail).map normLine) := by
    rw [hsplit]
    simp [normLine, h1c, hdc]
  set X := (splitNl mid).map normLine with hX
  set Y := (splitNl tail).map normLine with hY
  set ind := line1.takeWhile isIndentCh with hind
  have hfm : (([] :: line1 :: (X ++ d :: Y)).filterMap
      (fun l => if l.isEmpty then none else some (l.takeWhile isIndentCh))) =
      ind :: ((X ++ d :: Y).filterMap
        (fun l => if l.isEmpty then none else some (l.takeWhile isIndentCh))) := by
    rw [List.filterMap_cons, List.filterMap_cons]
    simp [h1ne]
  set margin := ((X ++ d :: Y).filterMap
      (fun l => if l.isEmpty then none else some (l.takeWhile isIndentCh))).foldl lcp ind
    with hmdef
  have hmarg : dedentMargin (([] : List Char) :: line1 :: (X ++ d :: Y)) = margin := by
    rw [dedentMargin, hfm]
  have hmi : margin <+: ind := foldl_lcp_pre _ ind
  have hmw : margin <+: dws := hmi.trans hiw
  have hmdl : margin <+: d := by
    refine hmw.trans ⟨dpre ++ t ++ dpost, ?_⟩
    rw [hd]
  have hkle : margin.length ≤ dws.length := hmw.length_le
  have hdropd : dropMargin margin d =
      dws.drop margin.length ++ (dpre ++ t ++ dpost) := by
    rw [dropMargin, if_pos (List.isPrefixOf_iff_prefix.mpr hmdl), hd]
    exact List.drop_append_of_le_length hkle
  obtain ⟨A, B, hAB⟩ := joinNl_middle
    ((([] : List Char) :: line1 :: X).map (dropMargin margin))
    (dropMargin margin d) (Y.map (dropMargin margin))
  have hres : pyDedentL ('\n' :: (line1 ++ '\n' :: (mid ++ '\n' :: (d ++ '\n' :: tail)))) =
      joinNl (((splitNl ('\n' :: (line1 ++ '\n' :: (mid ++ '\n' :: (d ++ '\n' :: tail))))).map normLine).map
        (dropMargin (dedentMargin ((splitNl ('\n' :: (line1 ++ '\n' :: (mid ++ '\n' :: (d ++ '\n' :: tail))))).map normLine)))) := rfl
  have hded : pyDedentL ('\n' :: (line1 ++ '\n' :: (mid ++ '\n' :: (d ++ '\n' :: tail)))) =
      A ++ dropMargin margin d ++ B := by
    rw [hres, hlines, hmarg]
    rw [show (([] : List Char) :: line1 :: (X ++ d :: Y)).map (dropMargin margin) =
      (([] : List Char) :: line1 :: X).map (dropMargin margin) ++
        dropMargin margin d :: Y.map (dropMargin margin) from by simp]
    exact hAB
  rw [hded, hdropd]
  rw [show A ++ (dws.drop margin.length ++ (dpre ++ t ++ dpost)) ++ B =
    (A ++ dws.drop margin.length ++ dpre) ++ t ++ (dpost ++ B) from by
      simp [List.append_assoc]]
  refine pyStripL_keeps_mid t _ _ ?_ ?_
  · obtain ⟨x, hx, hnx⟩ := hpre
    exact ⟨x, by simp [hx], hnx⟩
  · obtain ⟨x, hx, hnx⟩ := hpost
    exact ⟨x, by simp [hx], hnx⟩

theorem fbHtml_result_div (brief cs : List Char) :
    ∃ A B, pyStripL (pyDedentL (fbHtmlRaw brief cs)) =
      A ++ ("id=\"result\"" : String).data ++ B := by
  have hshape : fbHtmlRaw brief cs =
      '\n' :: (("    <!doctype html><html lang=\"en\"><head>" : String).data ++
        '\n' :: ((("      <meta charset=\"utf-8\"/>\n      <meta name=\"viewport\" content=\"width=device-width,initial-scale=1\"/>\n      <title>Generated App (fallback)</title>\n      <link rel=\"stylesheet\" href=\"style.css\">\n    </head><body>\n      <main>\n        <h1>Generated App (No LLM configured)</h1>\n        <p><strong>Brief:</strong> " : String).data ++
          brief ++ fbHtmlM ++ cs ++ (" </p>" : String).data) ++
          '\n' :: ((("        <div id=\"result\">Set OPENAI_API_KEY to enable full generation.</div>" : String).data) ++
            '\n' :: ("        <script src=\"script.js\"></script>\n      </main>\n    </body></html>\n    " : String).data))) := by
    rw [fbHtmlRaw]
    rw [show fbHtmlA = '\n' ::
        (("    <!doctype html><html lang=\"en\"><head>" : String).data ++
         '\n' :: ("      <meta charset=\"utf-8\"/>\n      <meta name=\"viewport\" content=\"width=device-width,initial-scale=1\"/>\n      <title>Generated App (fallback)</title>\n      <link rel=\"stylesheet\" href=\"style.css\">\n    </head><body>\n      <main>\n        <h1>Generated App (No LLM configured)</h1>\n        <p><strong>Brief:</strong> " : String).data) from rfl]
    rw [show fbHtmlB = (" </p>" : String).data ++
        '\n' :: ((("        <div id=\"result\">Set OPENAI_API_KEY to enable full generation.</div>" : String).data) ++
          '\n' :: ("        <script src=\"script.js\"></script>\n      </main>\n    </body></html>\n    " : String).data) from rfl]
    simp [List.append_assoc]
  rw [hshape]
  refine dedent_strip_mid _ _ _ _ _ ("        " : String).data
    ("<div " : String).data
    (">Set OPENAI_API_KEY to enable full generation.</div>" : String).data
    ?_ ?_ ?_ ?_ ?_ ?_ ?_ ?_
  · decide
  · decide
  · decide
  · decide
  · decide
  · exact ⟨("    " : String).data, by decide⟩
  · exact ⟨'<', by decide, by decide⟩
  · exact ⟨'>', by decide, by decide⟩

/-- C7: with no generation backend configured, `generate_app_files`
    returns exactly the five-entry template file set — index.html from
    `_fallback_index_html`, style.css from `_style_css`, script.js from
    `_fallback_script_js`, README.md and LICENSE from their fixed
    templates; the fallback script's DOM target is consistent with the
    fallback markup (the script looks up `getElementById('result')` and
    the markup contains `id="result"`, for every brief/checks input);
    and in **every** mode (any client, any script) the stylesheet,
    readme and license are template-produced and the key set is the same
    five paths. -/
theorem C7_no_backend_fixed_template_set (brief : String)
    (checks attachments : List String) :
    ((generate_app_files none brief checks attachments).files =
      genFilesDict (_fallback_index_html brief checks attachments) _style_css
        _fallback_script_js (readme_md brief checks) (MIT_LICENSE "2025")) ∧
    ((generate_app_files none brief checks attachments).files.map Prod.fst =
      ["index.html", "style.css", "script.js", "README.md", "LICENSE"]) ∧
    (("getElementById(\x27result\x27)" : String).data <:+:
      _fallback_script_js.data) ∧
    (("id=\"result\"" : String).data <:+:
      (_fallback_index_html brief checks attachments).data) ∧
    (∀ client : Option LlmScript,
      ((generate_app_files client brief checks attachments).files.map Prod.fst =
        ["index.html", "style.css", "script.js", "README.md", "LICENSE"]) ∧
      dlookup (generate_app_files client brief checks attachments).files
        "style.css" = some _style_css ∧
      dlookup (generate_app_files client brief checks attachments).files
        "README.md" = some (readme_md brief checks) ∧
      dlookup (generate_app_files client brief checks attachments).files
        "LICENSE" = some (MIT_LICENSE "2025")) := by
  refine ⟨rfl, rfl, ?_, ?_, ?_⟩
  · exact ⟨("(function () \x7b\n  const out = document." : String).data,
      (";\n  const q = new URLSearchParams(location.search);\n  if (out) out.textContent = \x27Params: \x27 + q.toString();\n\x7d)();" : String).data,
      by rfl⟩
  · obtain ⟨A, B, h⟩ := fbHtml_result_div brief.data (checksJoinFallback checks).data
    refine ⟨A, B, ?_⟩
    simp only [_fallback_index_html]
    exact h.symm
  · intro client
    cases client with
    | none => exact ⟨rfl, rfl, rfl, rfl⟩
    | some script =>
      cases script with
      | nil => exact ⟨rfl, rfl, rfl, rfl⟩
      | cons r rest =>
        cases r with
        | error e => exact ⟨rfl, rfl, rfl, rfl⟩
        | ok h1 =>
          cases rest with
          | nil => exact ⟨rfl, rfl, rfl, rfl⟩
          | cons r2 rest2 =>
            cases r2 with
            | error e => exact ⟨rfl, rfl, rfl, rfl⟩
            | ok h2 => exact ⟨rfl, rfl, rfl, rfl⟩

end Claims

end MetaAppBuilder
